import Mathlib

/-!
# rmm: stream views, owning streams, host resource equality, event timer

A shallow embedding of

* `include/rmm/cuda_stream_view.hpp`  (`rmm::cuda_stream_view`, the default-stream constants),
* `include/rmm/cuda_stream.hpp`       (`rmm::hip_stream`),
* `include/rmm/mr/host/host_memory_resource.hpp` (`operator==`, `operator!=`),
* `benchmarks/synchronization/synchronization.cpp` (the constructor and the destructor of
  `cuda_event_timer`),

followed by the properties proved about them.

Conventions.  A native handle (`hipStream_t`, `hipEvent_t`) is a pointer; it is
modelled by its address, a natural number, with `nullptr` the address `0`.
A native status (`hipError_t`) is a natural number with `hipSuccess = 0`.
What the native runtime answers to a call is an input of the model.
The `float` arithmetic of the timer is a parameter (`FloatArith`), with IEEE 754
binary32 as the instance `FloatArith.binary32`.
-/

namespace rmm

/-! ## Native types -/

/-- The native stream handle `hipStream_t` (a pointer), by address. -/
abbrev hipStream_t := Nat

/-- The native event handle `hipEvent_t` (a pointer), by address. -/
abbrev hipEvent_t := Nat

/-- The native status code `hipError_t`. -/
abbrev hipError_t := Nat

/-- The null pointer constant. -/
def nullptr : Nat := 0

/-- The status `hipSuccess`. -/
def hipSuccess : hipError_t := 0

/-- The parts of the build that `cuda_stream_view.hpp` takes from outside the
repository: the two handle constants of `hip_runtime_api.h` and whether the
preprocessor symbol `CUDA_API_PER_THREAD_DEFAULT_STREAM` is defined. -/
structure Platform where
  cudaStreamLegacy : hipStream_t
  hipStreamPerThread : hipStream_t
  CUDA_API_PER_THREAD_DEFAULT_STREAM : Bool
deriving DecidableEq, Repr

/-! ## `cuda_stream_view.hpp` -/

/-- The class `cuda_stream_view`: one data member, `hipStream_t stream_{}`.
The defaulted default constructor value-initialises it, i.e. to the null pointer. -/
structure cuda_stream_view where
  stream_ : hipStream_t := nullptr
deriving DecidableEq, Repr

namespace cuda_stream_view

/-- The converting constructor `cuda_stream_view(hipStream_t stream) : stream_{stream}`. -/
def of_stream (stream : hipStream_t) : cuda_stream_view := { stream_ := stream }

/-- The member `value()`: `return stream_;`. -/
def value (self : cuda_stream_view) : hipStream_t := self.stream_

end cuda_stream_view

/-- The constant `cuda_stream_default{}`. -/
def cuda_stream_default : cuda_stream_view := {}

/-- The constant `cuda_stream_legacy{cudaStreamLegacy}`. -/
def cuda_stream_legacy (p : Platform) : cuda_stream_view :=
  cuda_stream_view.of_stream p.cudaStreamLegacy

/-- The constant `cuda_stream_per_thread{hipStreamPerThread}`. -/
def cuda_stream_per_thread (p : Platform) : cuda_stream_view :=
  cuda_stream_view.of_stream p.hipStreamPerThread

/-- The free function `operator==(cuda_stream_view lhs, cuda_stream_view rhs)`:
`return lhs.value() == rhs.value();`. -/
def operator_eq (lhs rhs : cuda_stream_view) : Bool := lhs.value == rhs.value

/-- The free function `operator!=`: `return not(lhs == rhs);`. -/
def operator_ne (lhs rhs : cuda_stream_view) : Bool := !(operator_eq lhs rhs)

namespace cuda_stream_view

/-- The member `is_per_thread_default()`.  The `#ifdef` is the branch on the
platform flag; `value() == cuda_stream_per_thread` compares the handle, converted
to a view, with the constant. -/
def is_per_thread_default (p : Platform) (self : cuda_stream_view) : Bool :=
  if p.CUDA_API_PER_THREAD_DEFAULT_STREAM then
    operator_eq (of_stream self.value) (cuda_stream_per_thread p) || self.value == nullptr
  else
    operator_eq (of_stream self.value) (cuda_stream_per_thread p)

/-- The member `is_default()`. -/
def is_default (p : Platform) (self : cuda_stream_view) : Bool :=
  if p.CUDA_API_PER_THREAD_DEFAULT_STREAM then
    operator_eq (of_stream self.value) (cuda_stream_legacy p)
  else
    operator_eq (of_stream self.value) (cuda_stream_legacy p) || self.value == nullptr

end cuda_stream_view

/-! ## `cuda_stream.hpp` -/

/-- The exception `rmm::cuda_error`, carrying the native status. -/
structure cuda_error where
  status : hipError_t
deriving DecidableEq, Repr

/-- Modelled from the spec: the macro `RMM_CUDA_TRY` of `rmm/detail/error.hpp`,
a header that is not among the sources.  A native call that does not return
`hipSuccess` makes the enclosing function fail with an error that embeds the
native status (`@throw rmm::cuda_error if stream creation fails`). -/
def RMM_CUDA_TRY (status : hipError_t) : Except cuda_error Unit :=
  if status = hipSuccess then Except.ok () else Except.error { status := status }

/-- Modelled from the spec: the macro `RMM_ASSERT_CUDA_SUCCESS` of
`rmm/detail/error.hpp`, a header that is not among the sources.  A native
failure is a fatal assertion; the result says whether execution goes on. -/
def RMM_ASSERT_CUDA_SUCCESS (status : hipError_t) : Bool := status == hipSuccess

/-- A call into the native runtime made by `hip_stream`.  `hipStreamCreate`
is recorded with the status the runtime returned and the handle it stored. -/
inductive NativeCall where
  | hipStreamCreate (status : hipError_t) (stream : hipStream_t)
  | hipStreamDestroy (stream : hipStream_t)
deriving DecidableEq, Repr

/-- The process state `hip_stream` acts on.
* `mem a` is the content of the `hipStream_t` cell at heap address `a`;
* `live` lists the cells obtained from `new hipStream_t` and not yet deleted;
* `calls` is the history of native calls, oldest first;
* `terminated` is set once a fatal assertion has ended the process. -/
structure Machine where
  mem : Nat → hipStream_t
  live : List Nat
  calls : List NativeCall
  terminated : Bool

/-- The class `hip_stream`: one data member,
`std::unique_ptr<hipStream_t, std::function<void(hipStream_t*)>> stream_`.
`none` is the null pointer, `some a` the pointer to the heap cell `a`.  The
deleter is the lambda of the constructor; a move hands it on together with
the pointer. -/
structure hip_stream where
  stream_ : Option Nat
deriving DecidableEq, Repr

/-- The objects of type `hip_stream` that are alive, by name. -/
abbrev Store := List (Nat × hip_stream)

namespace Store

/-- The object named `x`, when there is one. -/
def find (x : Nat) : Store → Option hip_stream
  | [] => none
  | (y, s) :: rest => if y = x then some s else find x rest

/-- The store with the object named `x` replaced by `v`. -/
def assign (x : Nat) (v : hip_stream) : Store → Store
  | [] => []
  | (y, s) :: rest => if y = x then (y, v) :: rest else (y, s) :: assign x v rest

/-- The store without the object named `x`. -/
def drop (x : Nat) : Store → Store
  | [] => []
  | (y, s) :: rest => if y = x then rest else (y, s) :: drop x rest

end Store

/-- A process state together with the live `hip_stream` objects. -/
structure World where
  m : Machine
  objs : Store

namespace hip_stream

/-- The member `is_valid()`: `return stream_ != nullptr;`. -/
def is_valid (self : hip_stream) : Bool := self.stream_ != none

/-- The member `value()`: `RMM_LOGGING_ASSERT(is_valid()); return *stream_;`.
The macro comes from `rmm/detail/error.hpp`, which is not among the sources;
by the specification a call on an invalid stream is a contract violation, so
such a call has no result here. -/
def value (m : Machine) (self : hip_stream) : Option hipStream_t :=
  match self.stream_ with
  | none => none
  | some a => some (m.mem a)

/-- The member `view()`: `return cuda_stream_view{value()};`. -/
def view (m : Machine) (self : hip_stream) : Option cuda_stream_view :=
  (value m self).map cuda_stream_view.of_stream

/-- The deleter lambda given to the `unique_ptr`:
`RMM_ASSERT_CUDA_SUCCESS(hipStreamDestroy(*stream)); delete stream;`.
`status` is what the runtime returns for the destroy call. -/
def deleter (m : Machine) (stream : Nat) (status : hipError_t) : Machine :=
  let m1 := { m with calls := m.calls ++ [NativeCall.hipStreamDestroy (m.mem stream)] }
  if RMM_ASSERT_CUDA_SUCCESS status then
    { m1 with live := m1.live.erase stream }
  else
    { m1 with terminated := true }

/-- The constructor `hip_stream()`, building the object named `x`:
`auto* stream = new hipStream_t; RMM_CUDA_TRY(hipStreamCreate(stream)); return stream;`
initialises `stream_`.  `cell` is the address `new` returns, `status` what
`hipStreamCreate` returns and `created` what the cell holds after the call.
When the macro throws, no object is built. -/
def ctor (w : World) (x cell : Nat) (status : hipError_t) (created : hipStream_t) :
    World × Except cuda_error Unit :=
  let stream := cell
  let m1 := { w.m with live := stream :: w.m.live }
  let m2 := { m1 with
    mem := fun a => if a = stream then created else m1.mem a,
    calls := m1.calls ++ [NativeCall.hipStreamCreate status created] }
  match RMM_CUDA_TRY status with
  | Except.error e => ({ w with m := m2 }, Except.error e)
  | Except.ok _ => ({ m := m2, objs := (x, { stream_ := some stream }) :: w.objs }, Except.ok ())

/-- The defaulted move constructor `hip_stream(hip_stream&&)`, building the
object named `x` from the object named `src`: the new `unique_ptr` takes
`src.stream_.release()`, which leaves `src.stream_` null. -/
def move_ctor (w : World) (x src : Nat) : World :=
  match w.objs.find src with
  | none => w
  | some s => { w with objs := (x, { stream_ := s.stream_ }) :: w.objs.assign src { stream_ := none } }

/-- The defaulted move assignment `dst = std::move(src)`, which for the
`unique_ptr` member is `reset(u.release())`: `release` nulls the source and
returns its pointer `p`; `reset(p)` stores `p` and then runs the deleter on
the pointer held before, when that was not null.  `status` is what the
runtime returns if that deleter calls `hipStreamDestroy`. -/
def move_assign (w : World) (dst src : Nat) (status : hipError_t) : World :=
  match w.objs.find src with
  | none => w
  | some s =>
    let p := s.stream_
    let objs1 := w.objs.assign src { stream_ := none }
    match objs1.find dst with
    | none => w
    | some d =>
      let objs2 := objs1.assign dst { stream_ := p }
      match d.stream_ with
      | none => { w with objs := objs2 }
      | some old => { m := deleter w.m old status, objs := objs2 }

/-- The defaulted destructor `~hip_stream()` of the object named `x`: the
`unique_ptr` runs the deleter when its pointer is not null. -/
def dtor (w : World) (x : Nat) (status : hipError_t) : World :=
  match w.objs.find x with
  | none => w
  | some s =>
    match s.stream_ with
    | none => { w with objs := w.objs.drop x }
    | some a => { m := deleter w.m a status, objs := w.objs.drop x }

end hip_stream

/-- One action of a client program on `hip_stream` objects, with the answers
of the allocator and of the native runtime it meets. -/
inductive Op where
  | construct (x cell : Nat) (status : hipError_t) (created : hipStream_t)
  | move_construct (x src : Nat)
  | move_assign (dst src : Nat) (status : hipError_t)
  | destroy (x : Nat) (status : hipError_t)
deriving DecidableEq, Repr

/-- What the language demands of an action, and the allocator of itself: a
constructed object has a new name, every other object mentioned is alive,
and `new` returns a non-null address that is not allocated at the time. -/
def Op.wellFormed (w : World) : Op → Bool
  | Op.construct x cell _ _ =>
    (w.objs.find x).isNone && cell != nullptr && !(w.m.live.contains cell)
  | Op.move_construct x src => (w.objs.find x).isNone && (w.objs.find src).isSome
  | Op.move_assign dst src _ => (w.objs.find dst).isSome && (w.objs.find src).isSome
  | Op.destroy x _ => (w.objs.find x).isSome

/-- The effect of one action.  Nothing happens after the process has
terminated; an action that is not well formed is not part of any run. -/
def step (w : World) (op : Op) : World :=
  if w.m.terminated || !(op.wellFormed w) then w
  else
    match op with
    | Op.construct x cell status created => (hip_stream.ctor w x cell status created).1
    | Op.move_construct x src => hip_stream.move_ctor w x src
    | Op.move_assign dst src status => hip_stream.move_assign w dst src status
    | Op.destroy x status => hip_stream.dtor w x status

/-- The effect of a sequence of actions. -/
def run (w : World) (ops : List Op) : World := ops.foldl step w

/-- The state of a process that has not yet touched a stream. -/
def World.init : World :=
  { m := { mem := fun _ => nullptr, live := [], calls := [], terminated := false },
    objs := [] }

/-- The handles that successful `hipStreamCreate` calls produced, in order. -/
def created (calls : List NativeCall) : List hipStream_t :=
  calls.filterMap fun c =>
    match c with
    | NativeCall.hipStreamCreate status h => if status = hipSuccess then some h else none
    | NativeCall.hipStreamDestroy _ => none

/-- The handles passed to `hipStreamDestroy`, in order. -/
def destroyed (calls : List NativeCall) : List hipStream_t :=
  calls.filterMap fun c =>
    match c with
    | NativeCall.hipStreamCreate _ _ => none
    | NativeCall.hipStreamDestroy h => some h

/-- The heap cells held by the objects of a store. -/
def Store.cells (objs : Store) : List Nat := objs.filterMap fun p => p.2.stream_

/-- The handles held by the live objects. -/
def World.owned (w : World) : List hipStream_t := w.objs.cells.map w.m.mem

/-- The accounting of handles and cells in a world: every handle has been
created as often as it has been destroyed or is owned by a live object, no
cell is held by two objects, and every cell held by an object is allocated. -/
def World.balanced (w : World) : Prop :=
  (∀ h, (created w.m.calls).count h = (destroyed w.m.calls).count h + w.owned.count h) ∧
  w.objs.cells.Nodup ∧
  ∀ a ∈ w.objs.cells, a ∈ w.m.live

/-- The heap cell `a` is leaked in `w`: it is allocated, and no live object
holds it. -/
def World.leaks (w : World) (a : Nat) : Prop :=
  a ∈ w.m.live ∧ a ∉ w.objs.cells

/-! ## `benchmarks/synchronization/synchronization.cpp` -/

/-- The floating-point operations the timer's destructor uses, uninterpreted:
`F` is `float`, `D` is `double`. -/
structure FloatArith (F D : Type) where
  zero : F
  one : F
  ofInt : Int → F
  mul : F → F → F
  div : F → F → F
  toDouble : F → D

/-- Arithmetic without rounding, for use where a concrete instance is wanted. -/
def FloatArith.exact : FloatArith Rat Rat :=
  { zero := 0, one := 1, ofInt := fun n => n, mul := fun a b => a * b,
    div := fun a b => a / b, toDouble := fun a => a }

/-- Rounding to the nearest integer, ties to the even one. -/
def roundEven (y : Rat) : Int :=
  if y - ⌊y⌋ < 1 / 2 then ⌊y⌋
  else if 1 / 2 < y - ⌊y⌋ then ⌊y⌋ + 1
  else if ⌊y⌋ % 2 = 0 then ⌊y⌋ else ⌊y⌋ + 1

/-- The spacing of the IEEE 754 binary32 values around `x`: a significand of
24 bits, and the least exponent `-126`, below which the spacing stays
`2 ^ (-149)`. -/
def binary32_quantum (x : Rat) : Rat := (2 : Rat) ^ (max (Int.log 2 |x|) (-126) - 23)

/-- The binary32 value nearest to `x`, ties to even: the rounding of every
`float` operation in the default rounding mode.  A result of magnitude
`2 ^ 128` or more stands for an overflow. -/
def binary32_round (x : Rat) : Rat :=
  if x = 0 then 0 else (roundEven (x / binary32_quantum x) : Rat) * binary32_quantum x

/-- The arithmetic of `float` as IEEE 754 binary32 on finite values, a value
being the rational number it denotes: every operation is the exact one
followed by `binary32_round`, and widening to `double` is exact.  Infinities,
NaN, the sign of zero and division by zero are not represented. -/
def FloatArith.binary32 : FloatArith Rat Rat :=
  { zero := 0, one := 1, ofInt := fun n => binary32_round n,
    mul := fun a b => binary32_round (a * b), div := fun a b => binary32_round (a / b),
    toDouble := fun a => a }

/-- The macro `RMM_CUDA_ASSERT_OK(expr)` applied to a call that returned
`status`; the result says whether execution goes on.  With `NDEBUG` it expands
to `expr` and the status is dropped; otherwise it is
`assert(hipSuccess == status)`. -/
def RMM_CUDA_ASSERT_OK (NDEBUG : Bool) (status : hipError_t) : Bool :=
  if NDEBUG then true else hipSuccess == status

/-- The data members of `cuda_event_timer`: the bound stream, the pointer to
the sink `benchmark::State`, and the two events. -/
structure cuda_event_timer where
  stream : cuda_stream_view
  p_state : Nat
  start : hipEvent_t
  stop : hipEvent_t
deriving DecidableEq, Repr

/-- What the timer does to the outside: native calls, the report
`p_state->SetIterationTime(seconds)` to the sink, and the scratch buffer of
the constructor.  `hipEventCreate` is recorded with the event it stored.
The buffer is an `rmm::device_buffer`, whose header is not among the sources;
by the specification it is allocated on the stream when it is constructed
(`device_buffer_allocate`) and released on the stream when it goes out of
scope (`device_buffer_release`). -/
inductive TimerCall (D : Type) where
  | hipEventRecord (event : hipEvent_t) (stream : hipStream_t)
  | hipEventSynchronize (event : hipEvent_t)
  | hipEventElapsedTime (start stop : hipEvent_t)
  | SetIterationTime (state : Nat) (seconds : D)
  | hipEventDestroy (event : hipEvent_t)
  | hipGetDevice
  | hipDeviceGetAttribute (device : Int)
  | device_buffer_allocate (bytes : Int) (stream : hipStream_t)
  | hipMemsetAsync (data : Nat) (value : Int) (bytes : Int) (stream : hipStream_t)
  | device_buffer_release (data : Nat)
  | hipEventCreate (event : hipEvent_t)

/-- The answers of the native runtime to the calls of the destructor:
the five statuses and what `hipEventElapsedTime` stores through its first
argument, if it stores anything. -/
structure TimerAnswers (F : Type) where
  record : hipError_t
  synchronize : hipError_t
  elapsed : hipError_t
  elapsed_ms : Option F
  destroy_start : hipError_t
  destroy_stop : hipError_t

/-- The outcome of running the destructor: what it did, oldest first, and
whether an assertion stopped it. -/
structure TimerResult (D : Type) where
  calls : List (TimerCall D)
  aborted : Bool

/-- The number of reports to the sink among `calls`. -/
def TimerCall.reports {D : Type} : List (TimerCall D) → Nat
  | [] => 0
  | TimerCall.SetIterationTime _ _ :: rest => reports rest + 1
  | _ :: rest => reports rest

namespace cuda_event_timer

/-- The destructor `cuda_event_timer::~cuda_event_timer()`. -/
def dtor {F D : Type} (fl : FloatArith F D) (NDEBUG : Bool) (self : cuda_event_timer)
    (r : TimerAnswers F) : TimerResult D :=
  let c1 := [TimerCall.hipEventRecord self.stop self.stream.value]
  if !RMM_CUDA_ASSERT_OK NDEBUG r.record then { calls := c1, aborted := true } else
  let c2 := c1 ++ [TimerCall.hipEventSynchronize self.stop]
  if !RMM_CUDA_ASSERT_OK NDEBUG r.synchronize then { calls := c2, aborted := true } else
  let milliseconds := r.elapsed_ms.getD fl.zero
  let c3 := c2 ++ [TimerCall.hipEventElapsedTime self.start self.stop]
  if !RMM_CUDA_ASSERT_OK NDEBUG r.elapsed then { calls := c3, aborted := true } else
  let to_milliseconds := fl.div fl.one (fl.ofInt 1000)
  let c4 := c3 ++ [TimerCall.SetIterationTime self.p_state
    (fl.toDouble (fl.mul milliseconds to_milliseconds))]
  let c5 := c4 ++ [TimerCall.hipEventDestroy self.start]
  if !RMM_CUDA_ASSERT_OK NDEBUG r.destroy_start then { calls := c5, aborted := true } else
  let c6 := c5 ++ [TimerCall.hipEventDestroy self.stop]
  if !RMM_CUDA_ASSERT_OK NDEBUG r.destroy_stop then { calls := c6, aborted := true } else
  { calls := c6, aborted := false }

end cuda_event_timer

/-- What ends the constructor of the timer early: the error thrown by
`RMM_CUDA_TRY`, or the failure of the scratch buffer to be allocated. -/
inductive timer_exception where
  | cuda (e : cuda_error)
  | device_buffer
deriving DecidableEq, Repr

/-- The answers the constructor of the timer gets: the status of each native
call, the device and the cache size the runtime stores, the address of the
scratch buffer (`none` when its allocation fails), and the events
`hipEventCreate` stores. -/
structure TimerCtorAnswers where
  get_device : hipError_t
  current_device : Int
  get_attribute : hipError_t
  l2_cache_bytes : Int
  buffer : Option Nat
  memset : hipError_t
  create_start : hipError_t
  start : hipEvent_t
  create_stop : hipError_t
  stop : hipEvent_t
  record : hipError_t

/-- The outcome of running the constructor: what it did, oldest first, and
the timer it built or the exception it threw. -/
structure TimerCtorResult (D : Type) where
  calls : List (TimerCall D)
  result : Except timer_exception cuda_event_timer

namespace cuda_event_timer

/-- The block `if (flush_l2_cache) { ... }` of the constructor: what it does,
and the exception that leaves it, if any.  A buffer that was allocated is
released when its scope is left, normally or by the exception. -/
def ctor_flush {D : Type} (flush_l2_cache : Bool) (stream : cuda_stream_view)
    (a : TimerCtorAnswers) : List (TimerCall D) × Option timer_exception :=
  if flush_l2_cache then
    let c1 := [TimerCall.hipGetDevice]
    match RMM_CUDA_TRY a.get_device with
    | Except.error e => (c1, some (timer_exception.cuda e))
    | Except.ok _ =>
      let c2 := c1 ++ [TimerCall.hipDeviceGetAttribute a.current_device]
      match RMM_CUDA_TRY a.get_attribute with
      | Except.error e => (c2, some (timer_exception.cuda e))
      | Except.ok _ =>
        if a.l2_cache_bytes > 0 then
          let c3 := c2 ++ [TimerCall.device_buffer_allocate a.l2_cache_bytes stream.value]
          match a.buffer with
          | none => (c3, some timer_exception.device_buffer)
          | some data =>
            let c4 := c3 ++ [TimerCall.hipMemsetAsync data 0 a.l2_cache_bytes stream.value]
            match RMM_CUDA_TRY a.memset with
            | Except.error e =>
              (c4 ++ [TimerCall.device_buffer_release data], some (timer_exception.cuda e))
            | Except.ok _ => (c4 ++ [TimerCall.device_buffer_release data], none)
        else (c2, none)
  else ([], none)

/-- The constructor `cuda_event_timer(state, flush_l2_cache, stream)`, `state`
being the address of the sink: the members `stream` and `p_state` are
initialised, the cache is flushed on request, and then
`RMM_CUDA_TRY(hipEventCreate(&start)); RMM_CUDA_TRY(hipEventCreate(&stop));
RMM_CUDA_TRY(hipEventRecord(start, stream.value()));`. -/
def ctor {D : Type} (state : Nat) (flush_l2_cache : Bool) (stream : cuda_stream_view)
    (a : TimerCtorAnswers) : TimerCtorResult D :=
  match ctor_flush flush_l2_cache stream a with
  | (c0, some e) => { calls := c0, result := Except.error e }
  | (c0, none) =>
    let c1 := c0 ++ [TimerCall.hipEventCreate a.start]
    match RMM_CUDA_TRY a.create_start with
    | Except.error e => { calls := c1, result := Except.error (timer_exception.cuda e) }
    | Except.ok _ =>
      let c2 := c1 ++ [TimerCall.hipEventCreate a.stop]
      match RMM_CUDA_TRY a.create_stop with
      | Except.error e => { calls := c2, result := Except.error (timer_exception.cuda e) }
      | Except.ok _ =>
        let c3 := c2 ++ [TimerCall.hipEventRecord a.start stream.value]
        match RMM_CUDA_TRY a.record with
        | Except.error e => { calls := c3, result := Except.error (timer_exception.cuda e) }
        | Except.ok _ =>
          { calls := c3,
            result := Except.ok
              { stream := stream, p_state := state, start := a.start, stop := a.stop } }

end cuda_event_timer

/-! ## `mr/host/host_memory_resource.hpp` -/

namespace mr

/-- An object of a resource class `Derived`: where it lives and what it holds.
`host_memory_resource` itself has no data members; `val` stands for whatever
the adopting class adds. -/
structure Instance (α : Type) where
  addr : Nat
  val : α

namespace host_memory_resource

/-- The friend `operator==(const Derived& left, const Other& right)`, enabled
only for `Other = Derived`: `return &left == &right;`. -/
def operator_eq {α : Type} (left right : Instance α) : Bool := left.addr == right.addr

/-- The friend `operator!=(const Derived& left, const T& right)`, available for
every `T` for which `left == right` is well-formed; `eq` is that `==`.
`return !(left == right);`. -/
def operator_ne {α T : Type} (eq : Instance α → T → Bool) (left : Instance α) (right : T) :
    Bool :=
  !(eq left right)

end host_memory_resource

end mr

/-! # Properties -/

/-! ## Stream views -/

/-- C1.  Default-stream resolution follows the table for every handle and both
modes: without `CUDA_API_PER_THREAD_DEFAULT_STREAM`, `is_default()` holds
exactly for the legacy constant and the null handle and
`is_per_thread_default()` exactly for the per-thread constant; with it,
`is_default()` holds exactly for the legacy constant and
`is_per_thread_default()` exactly for the per-thread constant and the null
handle. -/
theorem C1_default_stream_resolution (legacy per_thread h : hipStream_t) :
    (((cuda_stream_view.of_stream h).is_default
          { cudaStreamLegacy := legacy, hipStreamPerThread := per_thread,
            CUDA_API_PER_THREAD_DEFAULT_STREAM := false } = true
        ↔ (h = legacy ∨ h = nullptr)) ∧
      ((cuda_stream_view.of_stream h).is_per_thread_default
          { cudaStreamLegacy := legacy, hipStreamPerThread := per_thread,
            CUDA_API_PER_THREAD_DEFAULT_STREAM := false } = true
        ↔ h = per_thread)) ∧
    (((cuda_stream_view.of_stream h).is_default
          { cudaStreamLegacy := legacy, hipStreamPerThread := per_thread,
            CUDA_API_PER_THREAD_DEFAULT_STREAM := true } = true
        ↔ h = legacy) ∧
      ((cuda_stream_view.of_stream h).is_per_thread_default
          { cudaStreamLegacy := legacy, hipStreamPerThread := per_thread,
            CUDA_API_PER_THREAD_DEFAULT_STREAM := true } = true
        ↔ (h = per_thread ∨ h = nullptr))) := by
  simp [cuda_stream_view.is_default, cuda_stream_view.is_per_thread_default, operator_eq,
    cuda_stream_legacy, cuda_stream_per_thread, cuda_stream_view.of_stream,
    cuda_stream_view.value]

/-- C2.  When the legacy and per-thread constants are distinct non-null handles:
in legacy mode the null handle is the default stream and not the per-thread
default, and the per-thread constant is the per-thread default and not the
default; in per-thread-default mode the null handle is the per-thread default
and not the default, and the legacy constant is the default.  So the null
handle is exactly one of the two defaults, chosen by the mode. -/
theorem C2_null_handle_by_mode (legacy per_thread : hipStream_t)
    (hl : legacy ≠ nullptr) (hp : per_thread ≠ nullptr) (hlp : legacy ≠ per_thread) :
    ((cuda_stream_view.of_stream nullptr).is_default
        { cudaStreamLegacy := legacy, hipStreamPerThread := per_thread,
          CUDA_API_PER_THREAD_DEFAULT_STREAM := false } = true ∧
      (cuda_stream_view.of_stream per_thread).is_per_thread_default
        { cudaStreamLegacy := legacy, hipStreamPerThread := per_thread,
          CUDA_API_PER_THREAD_DEFAULT_STREAM := false } = true ∧
      (cuda_stream_view.of_stream per_thread).is_default
        { cudaStreamLegacy := legacy, hipStreamPerThread := per_thread,
          CUDA_API_PER_THREAD_DEFAULT_STREAM := false } = false ∧
      (cuda_stream_view.of_stream nullptr).is_per_thread_default
        { cudaStreamLegacy := legacy, hipStreamPerThread := per_thread,
          CUDA_API_PER_THREAD_DEFAULT_STREAM := false } = false) ∧
    ((cuda_stream_view.of_stream nullptr).is_per_thread_default
        { cudaStreamLegacy := legacy, hipStreamPerThread := per_thread,
          CUDA_API_PER_THREAD_DEFAULT_STREAM := true } = true ∧
      (cuda_stream_view.of_stream legacy).is_default
        { cudaStreamLegacy := legacy, hipStreamPerThread := per_thread,
          CUDA_API_PER_THREAD_DEFAULT_STREAM := true } = true ∧
      (cuda_stream_view.of_stream nullptr).is_default
        { cudaStreamLegacy := legacy, hipStreamPerThread := per_thread,
          CUDA_API_PER_THREAD_DEFAULT_STREAM := true } = false) := by
  have hl2 : ¬ nullptr = legacy := fun h => hl h.symm
  have hp2 : ¬ nullptr = per_thread := fun h => hp h.symm
  have hlp2 : ¬ per_thread = legacy := fun h => hlp h.symm
  simp [cuda_stream_view.is_default, cuda_stream_view.is_per_thread_default, operator_eq,
    cuda_stream_legacy, cuda_stream_per_thread, cuda_stream_view.of_stream,
    cuda_stream_view.value, hl2, hp2, hlp2, hp]

/-- Witness for C2 with the handle values `1` (legacy) and `2` (per thread). -/
theorem C2_null_handle_by_mode_witness :
    ((1 : hipStream_t) ≠ nullptr ∧ (2 : hipStream_t) ≠ nullptr ∧ (1 : hipStream_t) ≠ 2) ∧
    (cuda_stream_view.of_stream nullptr).is_default
        { cudaStreamLegacy := 1, hipStreamPerThread := 2,
          CUDA_API_PER_THREAD_DEFAULT_STREAM := false } = true :=
  ⟨by decide, (C2_null_handle_by_mode 1 2 (by decide) (by decide) (by decide)).1.1⟩

/-- C3.  A view built from a handle returns that handle; a default-constructed
view and the constant `cuda_stream_default` hold the null handle and compare
equal to themselves. -/
theorem C3_view_value_roundtrip (h : hipStream_t) :
    (cuda_stream_view.of_stream h).value = h ∧
    ({} : cuda_stream_view).value = nullptr ∧
    cuda_stream_default.value = nullptr ∧
    operator_eq ({} : cuda_stream_view) ({} : cuda_stream_view) = true ∧
    operator_eq cuda_stream_default cuda_stream_default = true ∧
    operator_ne cuda_stream_default cuda_stream_default = false := by
  simp [cuda_stream_view.of_stream, cuda_stream_view.value, cuda_stream_default, operator_eq,
    operator_ne]

/-- C4.  Equality of views is equality of handles, `!=` is its negation, and
`==` is reflexive, symmetric and transitive. -/
theorem C4_view_equality (a b c : cuda_stream_view) :
    (operator_eq a b = true ↔ a.value = b.value) ∧
    operator_ne a b = !(operator_eq a b) ∧
    operator_eq a a = true ∧
    operator_eq a b = operator_eq b a ∧
    (operator_eq a b = true → operator_eq b c = true → operator_eq a c = true) := by
  refine ⟨by simp [operator_eq], rfl, by simp [operator_eq], ?_, ?_⟩
  · simp only [operator_eq]
    exact Bool.eq_iff_iff.mpr ⟨fun h => by simpa using (of_decide_eq_true h).symm,
      fun h => by simpa using (of_decide_eq_true h).symm⟩
  · simp only [operator_eq, beq_iff_eq]
    exact fun h1 h2 => h1.trans h2

/-- Witness for C4: three views of the handle `5`. -/
theorem C4_view_equality_witness :
    operator_eq (cuda_stream_view.of_stream 5) (cuda_stream_view.of_stream 5) = true ∧
    operator_eq (cuda_stream_view.of_stream 5) (cuda_stream_view.of_stream 5) = true :=
  ⟨by decide,
    (C4_view_equality (cuda_stream_view.of_stream 5) (cuda_stream_view.of_stream 5)
      (cuda_stream_view.of_stream 5)).2.2.2.2 (by decide) (by decide)⟩

/-! ## Host resource equality -/

/-- C8.  For a resource class that takes `==` from `host_memory_resource`:
an instance equals itself, two distinct instances (objects at different
addresses) are unequal whatever they hold, and `!=` is the negation of `==`
for every right-hand type for which `==` is defined. -/
theorem C8_host_resource_equality {α T : Type} (x y : mr.Instance α)
    (eq : mr.Instance α → T → Bool) (t : T) :
    mr.host_memory_resource.operator_eq x x = true ∧
    (x.addr ≠ y.addr → mr.host_memory_resource.operator_eq x y = false) ∧
    mr.host_memory_resource.operator_ne mr.host_memory_resource.operator_eq x y
      = !(mr.host_memory_resource.operator_eq x y) ∧
    mr.host_memory_resource.operator_ne eq x t = !(eq x t) := by
  refine ⟨by simp [mr.host_memory_resource.operator_eq], ?_, rfl, rfl⟩
  intro h
  simpa [mr.host_memory_resource.operator_eq] using h

/-- Witness for C8: two resources with the same content at the addresses `16`
and `32`, compared with each other and with a natural number through an
equality of its own. -/
theorem C8_host_resource_equality_witness :
    (16 : Nat) ≠ 32 ∧
    mr.host_memory_resource.operator_eq
      ({ addr := 16, val := () } : mr.Instance Unit) { addr := 32, val := () } = false :=
  ⟨by decide,
    (C8_host_resource_equality ({ addr := 16, val := () } : mr.Instance Unit)
      { addr := 32, val := () } (fun l n => l.addr == n) (7 : Nat)).2.1 (by decide)⟩

/-! ## Owning streams: the store -/

theorem Store.cells_cons (y : Nat) (t : hip_stream) (rest : Store) :
    Store.cells ((y, t) :: rest) = t.stream_.toList ++ Store.cells rest := by
  cases h : t.stream_ <;> simp [Store.cells, List.filterMap_cons, h]

theorem Store.find_assign_self (x : Nat) (v : hip_stream) :
    ∀ (objs : Store) (s : hip_stream), objs.find x = some s → (objs.assign x v).find x = some v
  | [], s, h => by simp [Store.find] at h
  | (y, t) :: rest, s, h => by
    by_cases hy : y = x
    · simp [Store.assign, Store.find, hy]
    · simp only [Store.find, hy, if_false] at h
      simp only [Store.assign, Store.find, hy, if_false]
      exact Store.find_assign_self x v rest s h

theorem Store.find_assign_other (x z : Nat) (v : hip_stream) (hne : z ≠ x) :
    ∀ (objs : Store), (objs.assign x v).find z = objs.find z
  | [] => rfl
  | (y, t) :: rest => by
    by_cases hy : y = x
    · have hz : ¬ y = z := fun h => hne (h.symm.trans hy)
      simp [Store.assign, Store.find, hy, hz, hne.symm]
    · by_cases hz : y = z
      · subst hz
        simp [Store.assign, Store.find, hy]
      · simp only [Store.assign, Store.find, hy, hz, if_false]
        exact Store.find_assign_other x z v hne rest

theorem Store.cells_assign_perm (x : Nat) (v : hip_stream) :
    ∀ (objs : Store) (s : hip_stream), objs.find x = some s →
      (s.stream_.toList ++ (objs.assign x v).cells).Perm (v.stream_.toList ++ objs.cells)
  | [], s, h => by simp [Store.find] at h
  | (y, t) :: rest, s, h => by
    by_cases hy : y = x
    · simp only [Store.find, hy, if_true, Option.some.injEq] at h
      subst h
      simp only [Store.assign, hy, if_true, Store.cells_cons]
      exact List.perm_append_comm_assoc _ _ _
    · simp only [Store.find, hy, if_false] at h
      have ih := Store.cells_assign_perm x v rest s h
      simp only [Store.assign, hy, if_false, Store.cells_cons]
      rw [List.perm_iff_count] at ih ⊢
      intro a
      have := ih a
      simp only [List.count_append] at this ⊢
      omega

theorem Store.cells_drop_perm (x : Nat) :
    ∀ (objs : Store) (s : hip_stream), objs.find x = some s →
      (s.stream_.toList ++ (objs.drop x).cells).Perm objs.cells
  | [], s, h => by simp [Store.find] at h
  | (y, t) :: rest, s, h => by
    by_cases hy : y = x
    · simp only [Store.find, hy, if_true, Option.some.injEq] at h
      subst h
      simp only [Store.drop, hy, if_true, Store.cells_cons]
      exact List.Perm.refl _
    · simp only [Store.find, hy, if_false] at h
      have ih := Store.cells_drop_perm x rest s h
      simp only [Store.drop, hy, if_false, Store.cells_cons]
      rw [List.perm_iff_count] at ih ⊢
      intro a
      have := ih a
      simp only [List.count_append] at this ⊢
      omega

/-! ## Owning streams: the native calls -/

theorem created_append_create (l : List NativeCall) (status : hipError_t) (h : hipStream_t) :
    created (l ++ [NativeCall.hipStreamCreate status h])
      = created l ++ (if status = hipSuccess then [h] else []) := by
  by_cases hs : status = hipSuccess <;> simp [created, List.filterMap_append, hs]

theorem created_append_destroy (l : List NativeCall) (h : hipStream_t) :
    created (l ++ [NativeCall.hipStreamDestroy h]) = created l := by
  simp [created, List.filterMap_append]

theorem destroyed_append_create (l : List NativeCall) (status : hipError_t) (h : hipStream_t) :
    destroyed (l ++ [NativeCall.hipStreamCreate status h]) = destroyed l := by
  simp [destroyed, List.filterMap_append]

theorem destroyed_append_destroy (l : List NativeCall) (h : hipStream_t) :
    destroyed (l ++ [NativeCall.hipStreamDestroy h]) = destroyed l ++ [h] := by
  simp [destroyed, List.filterMap_append]

theorem hip_stream.deleter_calls (m : Machine) (a : Nat) (status : hipError_t) :
    (hip_stream.deleter m a status).calls
      = m.calls ++ [NativeCall.hipStreamDestroy (m.mem a)] := by
  unfold hip_stream.deleter
  by_cases h : RMM_ASSERT_CUDA_SUCCESS status = true <;> simp [h]

theorem hip_stream.deleter_mem (m : Machine) (a : Nat) (status : hipError_t) :
    (hip_stream.deleter m a status).mem = m.mem := by
  unfold hip_stream.deleter
  by_cases h : RMM_ASSERT_CUDA_SUCCESS status = true <;> simp [h]

theorem hip_stream.deleter_live (m : Machine) (old a : Nat) (status : hipError_t)
    (hne : a ≠ old) (ha : a ∈ m.live) : a ∈ (hip_stream.deleter m old status).live := by
  unfold hip_stream.deleter
  by_cases h : RMM_ASSERT_CUDA_SUCCESS status = true
  · simp only [h, if_true]
    exact (List.mem_erase_of_ne hne).mpr ha
  · simp only [h]
    exact ha

/-- Releasing the cell `old` from the owners while the deleter destroys its
handle keeps the accounts. -/
theorem World.balanced_release (w : World) (objs2 : Store) (old : Nat) (status : hipError_t)
    (hb : w.balanced) (hp : (old :: objs2.cells).Perm w.objs.cells) :
    World.balanced { m := hip_stream.deleter w.m old status, objs := objs2 } := by
  obtain ⟨hc, hd, hl⟩ := hb
  have hd2 : (old :: objs2.cells).Nodup := hp.nodup_iff.mpr hd
  refine ⟨fun h => ?_, (List.nodup_cons.mp hd2).2, fun a ha => ?_⟩
  · have h1 := hc h
    have h2 := (hp.map w.m.mem).count_eq h
    simp only [World.owned, hip_stream.deleter_calls, hip_stream.deleter_mem,
      created_append_destroy, destroyed_append_destroy, List.count_append,
      List.map_cons] at h1 h2 ⊢
    simp only [List.count_cons, List.count_nil] at h2 ⊢
    omega
  · have hne : a ≠ old := fun h => (List.nodup_cons.mp hd2).1 (h ▸ ha)
    exact hip_stream.deleter_live w.m old a status hne
      (hl a (hp.subset (List.mem_cons_of_mem _ ha)))

/-- Rearranging the owners without touching the machine keeps the accounts. -/
theorem World.balanced_rearrange (w : World) (objs2 : Store)
    (hb : w.balanced) (hp : objs2.cells.Perm w.objs.cells) :
    World.balanced { w with objs := objs2 } := by
  obtain ⟨hc, hd, hl⟩ := hb
  refine ⟨fun h => ?_, hp.nodup_iff.mpr hd, fun a ha => hl a (hp.subset ha)⟩
  have h1 := hc h
  have h2 := (hp.map w.m.mem).count_eq h
  simp only [World.owned] at h1 h2 ⊢
  omega

theorem World.init_balanced : World.init.balanced := by
  refine ⟨fun h => ?_, ?_, fun a ha => ?_⟩
  · simp [World.init, created, destroyed, World.owned, Store.cells]
  · simp [World.init, Store.cells]
  · simp [World.init, Store.cells] at ha

theorem hip_stream.ctor_balanced (w : World) (x cell : Nat) (status : hipError_t)
    (c : hipStream_t) (hcell : cell ∉ w.m.live) (hb : w.balanced) :
    (hip_stream.ctor w x cell status c).1.balanced := by
  obtain ⟨hc, hd, hl⟩ := hb
  have hnot : cell ∉ w.objs.cells := fun h => hcell (hl cell h)
  have hmap : List.map (fun a => if a = cell then c else w.m.mem a) w.objs.cells
      = List.map w.m.mem w.objs.cells := by
    apply List.map_congr_left
    intro a ha
    have hne : a ≠ cell := fun h => hnot (h ▸ ha)
    simp [hne]
  by_cases hs : status = hipSuccess
  · refine ⟨fun h => ?_, ?_, fun a ha => ?_⟩
    · have h1 := hc h
      simp only [hip_stream.ctor, RMM_CUDA_TRY, hs, if_true, World.owned,
        created_append_create, destroyed_append_create, Store.cells_cons, Option.toList,
        List.map_append, List.map_cons, List.map_nil, List.count_append, hmap] at h1 ⊢
      simp only [List.count_cons, List.count_nil, if_true] at h1 ⊢
      omega
    · simp only [hip_stream.ctor, RMM_CUDA_TRY, hs, if_true, Store.cells_cons, Option.toList,
        List.singleton_append]
      exact List.nodup_cons.mpr ⟨hnot, hd⟩
    · simp only [hip_stream.ctor, RMM_CUDA_TRY, hs, if_true, Store.cells_cons, Option.toList,
        List.singleton_append, List.mem_cons] at ha ⊢
      rcases ha with rfl | ha
      · exact Or.inl rfl
      · exact Or.inr (hl a ha)
  · refine ⟨fun h => ?_, ?_, fun a ha => ?_⟩
    · have h1 := hc h
      simp only [hip_stream.ctor, RMM_CUDA_TRY, hs, if_false, World.owned,
        created_append_create, destroyed_append_create, List.append_nil, hmap] at h1 ⊢
      exact h1
    · simp only [hip_stream.ctor, RMM_CUDA_TRY, hs, if_false]
      exact hd
    · simp only [hip_stream.ctor, RMM_CUDA_TRY, hs, if_false] at ha ⊢
      exact List.mem_cons_of_mem _ (hl a ha)

/-- An induction principle for runs.  A property of worlds holds after every
run when it holds at the start and is kept by the three things an action can
do: build an object, hand cells from one object to another, and take a cell
from its owner while the deleter destroys its handle. -/
theorem step_preserves (P : World → Prop)
    (hctor : ∀ (w : World) x cell status c, cell ∉ w.m.live → P w →
      P (hip_stream.ctor w x cell status c).1)
    (hmove : ∀ (w : World) (objs2 : Store), P w → objs2.cells.Perm w.objs.cells →
      P { w with objs := objs2 })
    (hfree : ∀ (w : World) (objs2 : Store) old status, P w →
      (old :: objs2.cells).Perm w.objs.cells →
      P { m := hip_stream.deleter w.m old status, objs := objs2 })
    (w : World) (op : Op) (hw : P w) : P (step w op) := by
  unfold step
  split
  · exact hw
  · rename_i hgo
    cases op with
    | construct x cell status c =>
      refine hctor w x cell status c ?_ hw
      intro hmem
      apply hgo
      simp [Op.wellFormed, hmem]
    | move_construct x src =>
      simp only [hip_stream.move_ctor]
      cases hs : w.objs.find src with
      | none => exact hw
      | some s =>
        apply hmove w _ hw
        have := Store.cells_assign_perm src { stream_ := none } w.objs s hs
        simpa [Store.cells_cons] using this
    | move_assign dst src status =>
      simp only [hip_stream.move_assign]
      cases hs : w.objs.find src with
      | none => exact hw
      | some s =>
        simp only
        cases hd : (w.objs.assign src { stream_ := none }).find dst with
        | none => exact hw
        | some d =>
          have p1 := Store.cells_assign_perm src { stream_ := none } w.objs s hs
          have p2 := Store.cells_assign_perm dst { stream_ := s.stream_ }
            (w.objs.assign src { stream_ := none }) d hd
          have p3 : (d.stream_.toList ++ (Store.assign dst { stream_ := s.stream_ }
              (Store.assign src { stream_ := none } w.objs)).cells).Perm w.objs.cells := by
            refine p2.trans ?_
            simpa using p1
          simp only
          cases ho : d.stream_ with
          | none =>
            apply hmove w _ hw
            simpa [ho] using p3
          | some old =>
            apply hfree w _ old status hw
            simpa [ho] using p3
    | destroy x status =>
      simp only [hip_stream.dtor]
      cases hs : w.objs.find x with
      | none => exact hw
      | some s =>
        have p := Store.cells_drop_perm x w.objs s hs
        simp only
        cases ho : s.stream_ with
        | none =>
          apply hmove w _ hw
          simpa [ho] using p
        | some a =>
          apply hfree w _ a status hw
          simpa [ho] using p

theorem run_preserves (P : World → Prop)
    (hstep : ∀ (w : World) (op : Op), P w → P (step w op)) (ops : List Op) :
    ∀ (w : World), P w → P (run w ops) := by
  induction ops with
  | nil => exact fun w hw => hw
  | cons op rest ih => exact fun w hw => ih (step w op) (hstep w op hw)

theorem step_balanced (w : World) (op : Op) (hb : w.balanced) : (step w op).balanced :=
  step_preserves World.balanced
    (fun w x cell status c hcell h => hip_stream.ctor_balanced w x cell status c hcell h)
    (fun w objs2 h hp => World.balanced_rearrange w objs2 h hp)
    (fun w objs2 old status h hp => World.balanced_release w objs2 old status h hp) w op hb

theorem run_balanced (ops : List Op) (w : World) (hb : w.balanced) : (run w ops).balanced :=
  run_preserves World.balanced step_balanced ops w hb

/-! ## Owning streams: moves -/

theorem hip_stream.value_isSome_of_valid (m : Machine) (s : hip_stream)
    (hv : s.is_valid = true) : ∃ a, s.stream_ = some a ∧ s.value m = some (m.mem a) := by
  cases h : s.stream_ with
  | none => simp [hip_stream.is_valid, h] at hv
  | some a => exact ⟨a, rfl, by simp [hip_stream.value, h]⟩

/-- C5.  Moving a valid `hip_stream` transfers ownership.  In a running
process: after move construction of a new object `x` from a valid stream
`src`, and after move assignment of a valid stream `src` to another live
object `dst`, the moved-from object reports `is_valid() == false`, the
moved-to object reports `is_valid() == true`, and its `value()` and `view()`
return what `src` returned before the move; and an object built by a
constructor whose `hipStreamCreate` succeeded reports `is_valid() == true`
and has the created handle as its value. -/
theorem C5_move_transfers_ownership (w : World) (hterm : w.m.terminated = false) :
    (∀ src s x, w.objs.find src = some s → s.is_valid = true → w.objs.find x = none →
      ∃ s1 n, (step w (Op.move_construct x src)).objs.find src = some s1 ∧
        s1.is_valid = false ∧
        (step w (Op.move_construct x src)).objs.find x = some n ∧
        n.is_valid = true ∧
        (s.value w.m).isSome = true ∧
        n.value (step w (Op.move_construct x src)).m = s.value w.m ∧
        n.view (step w (Op.move_construct x src)).m = s.view w.m) ∧
    (∀ src s dst status, w.objs.find src = some s → s.is_valid = true → dst ≠ src →
      (w.objs.find dst).isSome = true →
      ∃ s1 d1, (step w (Op.move_assign dst src status)).objs.find src = some s1 ∧
        s1.is_valid = false ∧
        (step w (Op.move_assign dst src status)).objs.find dst = some d1 ∧
        d1.is_valid = true ∧
        (s.value w.m).isSome = true ∧
        d1.value (step w (Op.move_assign dst src status)).m = s.value w.m ∧
        d1.view (step w (Op.move_assign dst src status)).m = s.view w.m) ∧
    (∀ x cell c, w.objs.find x = none → cell ≠ nullptr → cell ∉ w.m.live →
      ∃ n, (step w (Op.construct x cell hipSuccess c)).objs.find x = some n ∧
        n.is_valid = true ∧
        n.value (step w (Op.construct x cell hipSuccess c)).m = some c ∧
        n.view (step w (Op.construct x cell hipSuccess c)).m
          = some (cuda_stream_view.of_stream c)) := by
  refine ⟨fun src s x hs hv hx => ?_, fun src s dst status hs hv hne hd => ?_,
    fun x cell c hx hcn hcl => ?_⟩
  · obtain ⟨a, ha, hval⟩ := hip_stream.value_isSome_of_valid w.m s hv
    have hxs : x ≠ src := by
      intro h
      rw [h, hs] at hx
      exact Option.noConfusion hx
    have hstep : step w (Op.move_construct x src)
        = { w with objs := (x, { stream_ := s.stream_ })
              :: w.objs.assign src { stream_ := none } } := by
      simp [step, Op.wellFormed, hterm, hx, hs, hip_stream.move_ctor]
    rw [hstep]
    refine ⟨{ stream_ := none }, { stream_ := s.stream_ }, ?_, ?_, ?_, ?_, ?_, ?_, ?_⟩
    · simp only [Store.find, hxs, if_false]
      exact Store.find_assign_self src _ w.objs s hs
    · simp [hip_stream.is_valid]
    · simp [Store.find]
    · simp [hip_stream.is_valid, ha]
    · simp [hval]
    · simp [hip_stream.value, ha]
    · simp [hip_stream.view, hip_stream.value, ha]
  · obtain ⟨a, ha, hval⟩ := hip_stream.value_isSome_of_valid w.m s hv
    obtain ⟨d, hd1⟩ := Option.isSome_iff_exists.mp hd
    have hd2 : (w.objs.assign src { stream_ := none }).find dst = some d := by
      rw [Store.find_assign_other src dst _ hne]
      exact hd1
    have hsrc1 : (w.objs.assign src { stream_ := none }).find src
        = some { stream_ := none } := Store.find_assign_self src _ w.objs s hs
    have hfs : ((w.objs.assign src { stream_ := none }).assign dst
        { stream_ := s.stream_ }).find src = some { stream_ := none } := by
      rw [Store.find_assign_other dst src _ (Ne.symm hne)]
      exact hsrc1
    have hfd : ((w.objs.assign src { stream_ := none }).assign dst
        { stream_ := s.stream_ }).find dst = some { stream_ := s.stream_ } :=
      Store.find_assign_self dst _ _ d hd2
    cases ho : d.stream_ with
    | none =>
      have hstep : step w (Op.move_assign dst src status)
          = { w with
              objs := Store.assign dst { stream_ := s.stream_ }
                (Store.assign src { stream_ := none } w.objs) } := by
        simp [step, Op.wellFormed, hterm, hd1, hs, hip_stream.move_assign, hd2, ho]
      rw [hstep]
      refine ⟨{ stream_ := none }, { stream_ := s.stream_ }, hfs, ?_, hfd, ?_, ?_, ?_, ?_⟩
      · simp [hip_stream.is_valid]
      · simp [hip_stream.is_valid, ha]
      · simp [hval]
      · simp [hip_stream.value, ha]
      · simp [hip_stream.view, hip_stream.value, ha]
    | some old =>
      have hstep : step w (Op.move_assign dst src status)
          = { m := hip_stream.deleter w.m old status,
              objs := Store.assign dst { stream_ := s.stream_ }
                (Store.assign src { stream_ := none } w.objs) } := by
        simp [step, Op.wellFormed, hterm, hd1, hs, hip_stream.move_assign, hd2, ho]
      rw [hstep]
      refine ⟨{ stream_ := none }, { stream_ := s.stream_ }, hfs, ?_, hfd, ?_, ?_, ?_, ?_⟩
      · simp [hip_stream.is_valid]
      · simp [hip_stream.is_valid, ha]
      · simp [hval]
      · simp [hip_stream.value, ha, hip_stream.deleter_mem]
      · simp [hip_stream.view, hip_stream.value, ha, hip_stream.deleter_mem]
  · have hstep : step w (Op.construct x cell hipSuccess c)
        = (hip_stream.ctor w x cell hipSuccess c).1 := by
      simp [step, Op.wellFormed, hterm, hx, hcn, hcl]
    rw [hstep]
    refine ⟨{ stream_ := some cell }, ?_, ?_, ?_, ?_⟩
    · simp [hip_stream.ctor, RMM_CUDA_TRY, Store.find]
    · simp [hip_stream.is_valid]
    · simp [hip_stream.ctor, RMM_CUDA_TRY, hip_stream.value]
    · simp [hip_stream.ctor, RMM_CUDA_TRY, hip_stream.view, hip_stream.value]

/-- Witness for C5: two streams with the handles `77` and `88`, in the cells
`16` and `32`; the first is moved into the second. -/
theorem C5_move_transfers_ownership_witness :
    ((run World.init [Op.construct 1 16 hipSuccess 77, Op.construct 2 32 hipSuccess 88]).m.terminated
        = false ∧
      (run World.init [Op.construct 1 16 hipSuccess 77, Op.construct 2 32 hipSuccess 88]).objs.find 1
        = some { stream_ := some 16 } ∧
      hip_stream.is_valid { stream_ := some 16 } = true ∧ (2 : Nat) ≠ 1 ∧
      ((run World.init
        [Op.construct 1 16 hipSuccess 77, Op.construct 2 32 hipSuccess 88]).objs.find 2).isSome
        = true) ∧
    ∃ s1 d1,
      (step (run World.init [Op.construct 1 16 hipSuccess 77, Op.construct 2 32 hipSuccess 88])
        (Op.move_assign 2 1 hipSuccess)).objs.find 1 = some s1 ∧
      s1.is_valid = false ∧
      (step (run World.init [Op.construct 1 16 hipSuccess 77, Op.construct 2 32 hipSuccess 88])
        (Op.move_assign 2 1 hipSuccess)).objs.find 2 = some d1 ∧
      d1.is_valid = true ∧
      (hip_stream.value
        (run World.init [Op.construct 1 16 hipSuccess 77, Op.construct 2 32 hipSuccess 88]).m
        { stream_ := some 16 }).isSome = true ∧
      d1.value (step (run World.init
          [Op.construct 1 16 hipSuccess 77, Op.construct 2 32 hipSuccess 88])
        (Op.move_assign 2 1 hipSuccess)).m
        = hip_stream.value
            (run World.init [Op.construct 1 16 hipSuccess 77, Op.construct 2 32 hipSuccess 88]).m
            { stream_ := some 16 } ∧
      d1.view (step (run World.init
          [Op.construct 1 16 hipSuccess 77, Op.construct 2 32 hipSuccess 88])
        (Op.move_assign 2 1 hipSuccess)).m
        = hip_stream.view
            (run World.init [Op.construct 1 16 hipSuccess 77, Op.construct 2 32 hipSuccess 88]).m
            { stream_ := some 16 } :=
  ⟨⟨rfl, rfl, rfl, by decide, rfl⟩,
    (C5_move_transfers_ownership
      (run World.init [Op.construct 1 16 hipSuccess 77, Op.construct 2 32 hipSuccess 88])
      rfl).2.1 1 { stream_ := some 16 } 2 hipSuccess rfl rfl (by decide) rfl⟩

/-! ## Owning streams: destruction -/

theorem step_destroy_calls (w : World) (x : Nat) (s : hip_stream) (status : hipError_t)
    (hterm : w.m.terminated = false) (hs : w.objs.find x = some s) :
    (step w (Op.destroy x status)).m.calls
      = w.m.calls ++ (match s.value w.m with
          | some h => [NativeCall.hipStreamDestroy h]
          | none => []) := by
  cases ho : s.stream_ with
  | none => simp [step, Op.wellFormed, hterm, hs, hip_stream.dtor, ho, hip_stream.value]
  | some a =>
    simp [step, Op.wellFormed, hterm, hs, hip_stream.dtor, ho, hip_stream.value,
      hip_stream.deleter_calls]

theorem step_destroy_null (w : World) (x : Nat) (status : hipError_t)
    (hs : w.objs.find x = some { stream_ := none }) :
    (step w (Op.destroy x status)).m.calls = w.m.calls := by
  by_cases hterm : w.m.terminated = true
  · simp [step, hterm]
  · have hterm2 : w.m.terminated = false := by simpa using hterm
    rw [step_destroy_calls w x _ status hterm2 hs]
    simp [hip_stream.value]

theorem step_move_construct_src (w : World) (x src : Nat)
    (hterm : w.m.terminated = false)
    (hwf : (Op.move_construct x src).wellFormed w = true) :
    (step w (Op.move_construct x src)).objs.find src = some { stream_ := none } := by
  simp only [Op.wellFormed, Bool.and_eq_true, Option.isNone_iff_eq_none] at hwf
  obtain ⟨hx, hsome⟩ := hwf
  obtain ⟨s, hs⟩ := Option.isSome_iff_exists.mp hsome
  have hxs : x ≠ src := by
    intro h
    rw [h, hs] at hx
    exact Option.noConfusion hx
  have hstep : step w (Op.move_construct x src)
      = { w with objs := (x, { stream_ := s.stream_ })
            :: w.objs.assign src { stream_ := none } } := by
    simp [step, Op.wellFormed, hterm, hx, hs, hip_stream.move_ctor]
  rw [hstep]
  simp only [Store.find, hxs, if_false]
  exact Store.find_assign_self src _ w.objs s hs

theorem step_move_assign_src (w : World) (dst src : Nat) (status : hipError_t)
    (hterm : w.m.terminated = false) (hne : dst ≠ src)
    (hwf : (Op.move_assign dst src status).wellFormed w = true) :
    (step w (Op.move_assign dst src status)).objs.find src = some { stream_ := none } := by
  simp only [Op.wellFormed, Bool.and_eq_true] at hwf
  obtain ⟨hd, hsome⟩ := hwf
  obtain ⟨s, hs⟩ := Option.isSome_iff_exists.mp hsome
  obtain ⟨d, hd1⟩ := Option.isSome_iff_exists.mp hd
  have hd2 : (w.objs.assign src { stream_ := none }).find dst = some d := by
    rw [Store.find_assign_other src dst _ hne]
    exact hd1
  have hfs : ((w.objs.assign src { stream_ := none }).assign dst
      { stream_ := s.stream_ }).find src = some { stream_ := none } := by
    rw [Store.find_assign_other dst src _ (Ne.symm hne)]
    exact Store.find_assign_self src _ w.objs s hs
  cases ho : d.stream_ with
  | none =>
    have hstep : step w (Op.move_assign dst src status)
        = { w with
            objs := Store.assign dst { stream_ := s.stream_ }
              (Store.assign src { stream_ := none } w.objs) } := by
      simp [step, Op.wellFormed, hterm, hd1, hs, hip_stream.move_assign, hd2, ho]
    rw [hstep]
    exact hfs
  | some old =>
    have hstep : step w (Op.move_assign dst src status)
        = { m := hip_stream.deleter w.m old status,
            objs := Store.assign dst { stream_ := s.stream_ }
              (Store.assign src { stream_ := none } w.objs) } := by
      simp [step, Op.wellFormed, hterm, hd1, hs, hip_stream.move_assign, hd2, ho]
    rw [hstep]
    exact hfs

/-- Assigning an object to itself, `x = std::move(x)`: `release` nulls the
pointer and `reset` stores it back, so the object is as before and no native
call is made. -/
theorem step_move_assign_self (w : World) (x : Nat) (s : hip_stream) (status : hipError_t)
    (hs : w.objs.find x = some s) :
    (step w (Op.move_assign x x status)).objs.find x = some s ∧
    (step w (Op.move_assign x x status)).m.calls = w.m.calls := by
  by_cases hterm : w.m.terminated = true
  · simp [step, hterm, hs]
  · have h1 : (w.objs.assign x { stream_ := none }).find x = some { stream_ := none } :=
      Store.find_assign_self x _ w.objs s hs
    have h2 := Store.find_assign_self x { stream_ := s.stream_ }
      (w.objs.assign x { stream_ := none }) _ h1
    simp [step, Op.wellFormed, hterm, hs, hip_stream.move_assign, h1, h2]

/-- C6.  After any sequence of constructions, moves and destructions:
destroying a live object issues `hipStreamDestroy`, on the handle the object
owns, exactly when the object is valid, and issues no native call otherwise;
destroying an object that has just been moved from (by move construction, or
by move assignment to another object) issues no native call; and every handle
has been passed to `hipStreamDestroy` at most as often as a successful
`hipStreamCreate` has produced it. -/
theorem C6_destroy_iff_valid_and_at_most_once (ops : List Op) :
    (∀ x s status, (run World.init ops).m.terminated = false →
      (run World.init ops).objs.find x = some s →
      (s.is_valid = true →
        ∃ h, s.value (run World.init ops).m = some h ∧
          (step (run World.init ops) (Op.destroy x status)).m.calls
            = (run World.init ops).m.calls ++ [NativeCall.hipStreamDestroy h]) ∧
      (s.is_valid = false →
        (step (run World.init ops) (Op.destroy x status)).m.calls
          = (run World.init ops).m.calls)) ∧
    (∀ x src status, (run World.init ops).m.terminated = false →
      (Op.move_construct x src).wellFormed (run World.init ops) = true →
      (step (step (run World.init ops) (Op.move_construct x src)) (Op.destroy src status)).m.calls
        = (step (run World.init ops) (Op.move_construct x src)).m.calls) ∧
    (∀ dst src status status2, (run World.init ops).m.terminated = false →
      (Op.move_assign dst src status).wellFormed (run World.init ops) = true →
      dst ≠ src →
      (step (step (run World.init ops) (Op.move_assign dst src status))
          (Op.destroy src status2)).m.calls
        = (step (run World.init ops) (Op.move_assign dst src status)).m.calls) ∧
    (∀ h, (destroyed (run World.init ops).m.calls).count h
        ≤ (created (run World.init ops).m.calls).count h) := by
  refine ⟨fun x s status hterm hs => ⟨fun hv => ?_, fun hv => ?_⟩,
    fun x src status hterm hwf => ?_, fun dst src status status2 hterm hwf hne => ?_,
    fun h => ?_⟩
  · obtain ⟨a, _, hval⟩ := hip_stream.value_isSome_of_valid (run World.init ops).m s hv
    refine ⟨_, hval, ?_⟩
    rw [step_destroy_calls _ x s status hterm hs, hval]
  · have hnone : s.stream_ = none := by
      cases h : s.stream_ with
      | none => rfl
      | some a => simp [hip_stream.is_valid, h] at hv
    rw [step_destroy_calls _ x s status hterm hs]
    simp [hip_stream.value, hnone]
  · exact step_destroy_null _ src status (step_move_construct_src _ x src hterm hwf)
  · exact step_destroy_null _ src status2 (step_move_assign_src _ dst src status hterm hne hwf)
  · have hb := (run_balanced ops World.init World.init_balanced).1 h
    omega

/-- Witness for C6: a stream with the handle `77` is moved into a new object,
which is then destroyed. -/
theorem C6_destroy_iff_valid_and_at_most_once_witness :
    ((run World.init [Op.construct 1 16 hipSuccess 77, Op.move_construct 2 1]).m.terminated = false ∧
      (run World.init [Op.construct 1 16 hipSuccess 77, Op.move_construct 2 1]).objs.find 2
        = some { stream_ := some 16 } ∧
      hip_stream.is_valid { stream_ := some 16 } = true) ∧
    ∃ h, hip_stream.value
        (run World.init [Op.construct 1 16 hipSuccess 77, Op.move_construct 2 1]).m
        { stream_ := some 16 } = some h ∧
      (step (run World.init [Op.construct 1 16 hipSuccess 77, Op.move_construct 2 1])
        (Op.destroy 2 hipSuccess)).m.calls
        = (run World.init [Op.construct 1 16 hipSuccess 77, Op.move_construct 2 1]).m.calls
          ++ [NativeCall.hipStreamDestroy h] :=
  ⟨⟨rfl, rfl, rfl⟩,
    ((C6_destroy_iff_valid_and_at_most_once
      [Op.construct 1 16 hipSuccess 77, Op.move_construct 2 1]).1 2 { stream_ := some 16 }
      hipSuccess rfl rfl).1 rfl⟩

/-! ## Owning streams: failed construction -/

theorem step_leaks (a : Nat) (w : World) (op : Op) (hw : w.leaks a) : (step w op).leaks a := by
  refine step_preserves (fun w => w.leaks a) ?_ ?_ ?_ w op hw
  · intro w x cell status c hcell ⟨h1, h2⟩
    have hne : a ≠ cell := fun h => hcell (h ▸ h1)
    by_cases hs : status = hipSuccess
    · refine ⟨?_, ?_⟩
      · simp only [hip_stream.ctor, RMM_CUDA_TRY, hs, if_true]
        exact List.mem_cons_of_mem _ h1
      · simp only [hip_stream.ctor, RMM_CUDA_TRY, hs, if_true, Store.cells_cons, Option.toList,
          List.singleton_append, List.mem_cons, not_or]
        exact ⟨hne, h2⟩
    · refine ⟨?_, ?_⟩
      · simp only [hip_stream.ctor, RMM_CUDA_TRY, hs, if_false]
        exact List.mem_cons_of_mem _ h1
      · simp only [hip_stream.ctor, RMM_CUDA_TRY, hs, if_false]
        exact h2
  · intro w objs2 ⟨h1, h2⟩ hp
    exact ⟨h1, fun h => h2 (hp.subset h)⟩
  · intro w objs2 old status ⟨h1, h2⟩ hp
    have hold : old ∈ w.objs.cells := hp.subset (List.mem_cons_self _ _)
    have hne : a ≠ old := fun h => h2 (h ▸ hold)
    exact ⟨hip_stream.deleter_live w.m old a status hne h1,
      fun h => h2 (hp.subset (List.mem_cons_of_mem _ h))⟩

theorem run_leaks (a : Nat) (ops : List Op) (w : World) (hw : w.leaks a) :
    (run w ops).leaks a :=
  run_preserves (fun w => w.leaks a) (step_leaks a) ops w hw

/-- A constructor whose `hipStreamCreate` fails throws the error with the
native status, builds no object and makes no further native call, and leaves
the cell it allocated leaked. -/
theorem hip_stream.ctor_failure (w : World) (x cell : Nat) (status : hipError_t)
    (c : hipStream_t) (hs : status ≠ hipSuccess) (hcell : cell ∉ w.m.live)
    (hb : ∀ a ∈ w.objs.cells, a ∈ w.m.live) :
    (hip_stream.ctor w x cell status c).2 = Except.error { status := status } ∧
    (hip_stream.ctor w x cell status c).1.objs = w.objs ∧
    (hip_stream.ctor w x cell status c).1.m.calls
      = w.m.calls ++ [NativeCall.hipStreamCreate status c] ∧
    (hip_stream.ctor w x cell status c).1.leaks cell := by
  refine ⟨?_, ?_, ?_, ?_, ?_⟩
  · simp [hip_stream.ctor, RMM_CUDA_TRY, hs]
  · simp [hip_stream.ctor, RMM_CUDA_TRY, hs]
  · simp [hip_stream.ctor, RMM_CUDA_TRY, hs]
  · simp [hip_stream.ctor, RMM_CUDA_TRY, hs]
  · simp only [hip_stream.ctor, RMM_CUDA_TRY, hs, if_false]
    exact fun h => hcell (hb _ h)

/-- C7, the failing input.  In a fresh process the constructor obtains the
cell at address `16` from `new hipStream_t` and meets a `hipStreamCreate` that
returns the status `2` (out of memory).  It throws `cuda_error` with that
status, no object comes into existence and the only native call is the failed
creation, as claimed; but the cell, which was not allocated before, is
allocated afterwards, is held by no object, and stays so whatever the program
does next. -/
theorem C7_failed_construction_leaks_cell :
    (hip_stream.ctor World.init 1 16 2 0).2 = Except.error { status := 2 } ∧
    (hip_stream.ctor World.init 1 16 2 0).1.objs = [] ∧
    (hip_stream.ctor World.init 1 16 2 0).1.m.calls = [NativeCall.hipStreamCreate 2 0] ∧
    World.init.m.live = [] ∧
    (hip_stream.ctor World.init 1 16 2 0).1.m.live = [16] ∧
    ∀ ops : List Op,
      16 ∈ (run (hip_stream.ctor World.init 1 16 2 0).1 ops).m.live ∧
      16 ∉ (run (hip_stream.ctor World.init 1 16 2 0).1 ops).objs.cells := by
  refine ⟨rfl, rfl, rfl, rfl, rfl, fun ops => ?_⟩
  have h0 : (hip_stream.ctor World.init 1 16 2 0).1.leaks 16 :=
    (hip_stream.ctor_failure World.init 1 16 2 0 (by decide)
      (by simp [World.init])
      (fun a ha => by simp [World.init, Store.cells] at ha)).2.2.2
  exact run_leaks 16 ops _ h0

/-! ## The event timer -/

/-- When every native call of the destructor succeeds, the destructor, in
either build, records the stop event on the stream of the timer, waits for
it, asks for the elapsed time, reports the product of the milliseconds and
`1.0F / 1000` to the sink once, and destroys both events. -/
theorem cuda_event_timer.dtor_success {F D : Type} (fl : FloatArith F D) (NDEBUG : Bool)
    (self : cuda_event_timer) (r : TimerAnswers F)
    (h1 : r.record = hipSuccess) (h2 : r.synchronize = hipSuccess)
    (h3 : r.elapsed = hipSuccess) (h4 : r.destroy_start = hipSuccess)
    (h5 : r.destroy_stop = hipSuccess) :
    (cuda_event_timer.dtor fl NDEBUG self r).aborted = false ∧
    (cuda_event_timer.dtor fl NDEBUG self r).calls
      = [TimerCall.hipEventRecord self.stop self.stream.value,
         TimerCall.hipEventSynchronize self.stop,
         TimerCall.hipEventElapsedTime self.start self.stop,
         TimerCall.SetIterationTime self.p_state
           (fl.toDouble (fl.mul (r.elapsed_ms.getD fl.zero) (fl.div fl.one (fl.ofInt 1000)))),
         TimerCall.hipEventDestroy self.start,
         TimerCall.hipEventDestroy self.stop] := by
  simp [cuda_event_timer.dtor, RMM_CUDA_ASSERT_OK, h1, h2, h3, h4, h5]

/-- C10, as the code has it.  Without `NDEBUG` the first native call of the
destructor that does not return `hipSuccess` stops the destructor by a failed
assertion at that call: no later call is made, and when the failure is in the
stop-event record, the synchronize or the elapsed-time query nothing is
reported to the sink.  With `NDEBUG` the statuses are dropped: whatever the
runtime returns, the destructor makes all five native calls, reports to the
sink once and returns normally. -/
theorem C10_timer_teardown_failures {F D : Type} (fl : FloatArith F D)
    (self : cuda_event_timer) (r : TimerAnswers F) :
    (r.record ≠ hipSuccess →
      (cuda_event_timer.dtor fl false self r).aborted = true ∧
      (cuda_event_timer.dtor fl false self r).calls
        = [TimerCall.hipEventRecord self.stop self.stream.value]) ∧
    (r.record = hipSuccess → r.synchronize ≠ hipSuccess →
      (cuda_event_timer.dtor fl false self r).aborted = true ∧
      (cuda_event_timer.dtor fl false self r).calls
        = [TimerCall.hipEventRecord self.stop self.stream.value,
           TimerCall.hipEventSynchronize self.stop]) ∧
    (r.record = hipSuccess → r.synchronize = hipSuccess → r.elapsed ≠ hipSuccess →
      (cuda_event_timer.dtor fl false self r).aborted = true ∧
      (cuda_event_timer.dtor fl false self r).calls
        = [TimerCall.hipEventRecord self.stop self.stream.value,
           TimerCall.hipEventSynchronize self.stop,
           TimerCall.hipEventElapsedTime self.start self.stop]) ∧
    (r.record = hipSuccess → r.synchronize = hipSuccess → r.elapsed = hipSuccess →
      r.destroy_start ≠ hipSuccess →
      (cuda_event_timer.dtor fl false self r).aborted = true ∧
      (cuda_event_timer.dtor fl false self r).calls
        = [TimerCall.hipEventRecord self.stop self.stream.value,
           TimerCall.hipEventSynchronize self.stop,
           TimerCall.hipEventElapsedTime self.start self.stop,
           TimerCall.SetIterationTime self.p_state
             (fl.toDouble (fl.mul (r.elapsed_ms.getD fl.zero) (fl.div fl.one (fl.ofInt 1000)))),
           TimerCall.hipEventDestroy self.start]) ∧
    (r.record = hipSuccess → r.synchronize = hipSuccess → r.elapsed = hipSuccess →
      r.destroy_start = hipSuccess → r.destroy_stop ≠ hipSuccess →
      (cuda_event_timer.dtor fl false self r).aborted = true ∧
      (cuda_event_timer.dtor fl false self r).calls
        = [TimerCall.hipEventRecord self.stop self.stream.value,
           TimerCall.hipEventSynchronize self.stop,
           TimerCall.hipEventElapsedTime self.start self.stop,
           TimerCall.SetIterationTime self.p_state
             (fl.toDouble (fl.mul (r.elapsed_ms.getD fl.zero) (fl.div fl.one (fl.ofInt 1000)))),
           TimerCall.hipEventDestroy self.start,
           TimerCall.hipEventDestroy self.stop]) ∧
    ((cuda_event_timer.dtor fl true self r).aborted = false ∧
      (cuda_event_timer.dtor fl true self r).calls
        = [TimerCall.hipEventRecord self.stop self.stream.value,
           TimerCall.hipEventSynchronize self.stop,
           TimerCall.hipEventElapsedTime self.start self.stop,
           TimerCall.SetIterationTime self.p_state
             (fl.toDouble (fl.mul (r.elapsed_ms.getD fl.zero) (fl.div fl.one (fl.ofInt 1000)))),
           TimerCall.hipEventDestroy self.start,
           TimerCall.hipEventDestroy self.stop]) := by
  refine ⟨fun h1 => ?_, fun h1 h2 => ?_, fun h1 h2 h3 => ?_, fun h1 h2 h3 h4 => ?_,
    fun h1 h2 h3 h4 h5 => ?_, ?_⟩
  · have : ¬ hipSuccess = r.record := fun h => h1 h.symm
    simp [cuda_event_timer.dtor, RMM_CUDA_ASSERT_OK, this]
  · have : ¬ hipSuccess = r.synchronize := fun h => h2 h.symm
    simp [cuda_event_timer.dtor, RMM_CUDA_ASSERT_OK, h1, this]
  · have : ¬ hipSuccess = r.elapsed := fun h => h3 h.symm
    simp [cuda_event_timer.dtor, RMM_CUDA_ASSERT_OK, h1, h2, this]
  · have : ¬ hipSuccess = r.destroy_start := fun h => h4 h.symm
    simp [cuda_event_timer.dtor, RMM_CUDA_ASSERT_OK, h1, h2, h3, this]
  · have : ¬ hipSuccess = r.destroy_stop := fun h => h5 h.symm
    simp [cuda_event_timer.dtor, RMM_CUDA_ASSERT_OK, h1, h2, h3, h4, this]
  · simp [cuda_event_timer.dtor, RMM_CUDA_ASSERT_OK]

/-- Witness for C10: without `NDEBUG`, the stop-event record fails with the
status `1`. -/
theorem C10_timer_teardown_failures_witness :
    (1 : hipError_t) ≠ hipSuccess ∧
    (cuda_event_timer.dtor FloatArith.exact false
        { stream := cuda_stream_default, p_state := 0, start := 1, stop := 2 }
        { record := 1, synchronize := 0, elapsed := 0, elapsed_ms := none,
          destroy_start := 0, destroy_stop := 0 }).aborted = true ∧
    (cuda_event_timer.dtor FloatArith.exact false
        { stream := cuda_stream_default, p_state := 0, start := 1, stop := 2 }
        { record := 1, synchronize := 0, elapsed := 0, elapsed_ms := none,
          destroy_start := 0, destroy_stop := 0 }).calls
      = [TimerCall.hipEventRecord 2 cuda_stream_default.value] :=
  ⟨by decide,
    (C10_timer_teardown_failures FloatArith.exact
      { stream := cuda_stream_default, p_state := 0, start := 1, stop := 2 }
      { record := 1, synchronize := 0, elapsed := 0, elapsed_ms := none,
        destroy_start := 0, destroy_stop := 0 }).1 (by decide)⟩

/-- C10 as stated fails.  With `NDEBUG` defined and the stop-event record
returning the status `1`, the destructor is not stopped: it returns normally
and has reported to the sink after the failed call. -/
theorem C10_release_build_continues_after_failure :
    (1 : hipError_t) ≠ hipSuccess ∧
    (cuda_event_timer.dtor FloatArith.exact true
        { stream := cuda_stream_default, p_state := 0, start := 1, stop := 2 }
        { record := 1, synchronize := 0, elapsed := 0, elapsed_ms := none,
          destroy_start := 0, destroy_stop := 0 }).aborted = false ∧
    TimerCall.reports (cuda_event_timer.dtor FloatArith.exact true
        { stream := cuda_stream_default, p_state := 0, start := 1, stop := 2 }
        { record := 1, synchronize := 0, elapsed := 0, elapsed_ms := none,
          destroy_start := 0, destroy_stop := 0 }).calls = 1 :=
  ⟨by decide, rfl, rfl⟩

/-! ## Single-precision rounding -/

theorem roundEven_sub_le (y : Rat) : |(roundEven y : Rat) - y| ≤ 1 / 2 := by
  have h1 := Int.floor_le y
  have h2 := Int.lt_floor_add_one y
  unfold roundEven
  split_ifs with ha hb hc
  · rw [abs_le]; constructor <;> linarith
  · rw [abs_le]; push_cast; constructor <;> linarith
  · rw [abs_le]; constructor <;> linarith
  · rw [abs_le]; push_cast; constructor <;> linarith

theorem roundEven_nonneg (y : Rat) (hy : 0 ≤ y) : 0 ≤ roundEven y := by
  have h0 : 0 ≤ ⌊y⌋ := Int.floor_nonneg.mpr hy
  unfold roundEven
  split_ifs <;> omega

theorem binary32_quantum_pos (x : Rat) : 0 < binary32_quantum x := by
  unfold binary32_quantum
  positivity

theorem binary32_quantum_le (x : Rat) (hx : x ≠ 0) :
    binary32_quantum x ≤ |x| * 2 ^ (-23 : Int) + 2 ^ (-149 : Int) := by
  unfold binary32_quantum
  have hpos : 0 < |x| := abs_pos.mpr hx
  rcases le_total (Int.log 2 |x|) (-126) with h | h
  · rw [max_eq_right h]
    have : (0 : Rat) ≤ |x| * 2 ^ (-23 : Int) := by positivity
    have e : (-126 : Int) - 23 = -149 := by norm_num
    rw [e]
    linarith
  · rw [max_eq_left h]
    have h1 : ((2 : Nat) : Rat) ^ Int.log 2 |x| ≤ |x| := Int.zpow_log_le_self (by norm_num) hpos
    have h2 : (2 : Rat) ^ (Int.log 2 |x| - 23) = (2 : Rat) ^ Int.log 2 |x| * 2 ^ (-23 : Int) := by
      rw [sub_eq_add_neg, zpow_add₀ (by norm_num)]
    rw [h2]
    have h3 : (0 : Rat) < 2 ^ (-23 : Int) := by positivity
    have h4 : (0 : Rat) < 2 ^ (-149 : Int) := by positivity
    push_cast at h1
    nlinarith

theorem binary32_round_sub_le (x : Rat) :
    |binary32_round x - x| ≤ |x| * 2 ^ (-24 : Int) + 2 ^ (-150 : Int) := by
  unfold binary32_round
  split_ifs with h0
  · subst h0; simp; positivity
  · have hq := binary32_quantum_pos x
    have hle := binary32_quantum_le x h0
    have hr := roundEven_sub_le (x / binary32_quantum x)
    have e : (roundEven (x / binary32_quantum x) : Rat) * binary32_quantum x - x
        = ((roundEven (x / binary32_quantum x) : Rat) - x / binary32_quantum x)
          * binary32_quantum x := by
      field_simp
    rw [e, abs_mul, abs_of_pos hq]
    have h24 : (2 : Rat) ^ (-24 : Int) = 2 ^ (-23 : Int) / 2 := by norm_num
    have h150 : (2 : Rat) ^ (-150 : Int) = 2 ^ (-149 : Int) / 2 := by norm_num
    rw [h24, h150]
    have hmul := mul_le_mul_of_nonneg_right hr hq.le
    generalize (2 : Rat) ^ (-23 : Int) = a at hle ⊢
    generalize (2 : Rat) ^ (-149 : Int) = b at hle ⊢
    generalize |x| = c at hle ⊢
    calc _ ≤ 1 / 2 * binary32_quantum x := hmul
      _ ≤ 1 / 2 * (c * a + b) := by linarith
      _ = c * (a / 2) + b / 2 := by ring

theorem binary32_round_nonneg (x : Rat) (hx : 0 ≤ x) : 0 ≤ binary32_round x := by
  unfold binary32_round
  split_ifs with h0
  · exact le_refl _
  · have hq := binary32_quantum_pos x
    have h1 : 0 ≤ x / binary32_quantum x := div_nonneg hx hq.le
    have h2 : (0 : Rat) ≤ (roundEven (x / binary32_quantum x) : Rat) := by
      exact_mod_cast roundEven_nonneg _ h1
    positivity


theorem roundEven_eq_of_near (y : Rat) (k : Int) (h : |y - k| < 1 / 2) : roundEven y = k := by
  have hr := roundEven_sub_le y
  rw [abs_lt] at h
  rw [abs_le] at hr
  have h1 : ((roundEven y : Int) : Rat) < (k : Rat) + 1 := by linarith
  have h2 : (k : Rat) - 1 < ((roundEven y : Int) : Rat) := by linarith
  have h3 : roundEven y < k + 1 := by exact_mod_cast h1
  have h4 : k - 1 < roundEven y := by exact_mod_cast h2
  omega

theorem binary32_round_eq_of_pos (x : Rat) (e k : Int) (hx : 0 < x) (he : -126 ≤ e)
    (h1 : (2 : Rat) ^ e ≤ x) (h2 : x < (2 : Rat) ^ (e + 1))
    (hk : |x / (2 : Rat) ^ (e - 23) - k| < 1 / 2) :
    binary32_round x = k * (2 : Rat) ^ (e - 23) := by
  have habs : |x| = x := abs_of_pos hx
  have hlog : Int.log 2 |x| = e := by
    rw [habs]
    apply le_antisymm
    · have : Int.log 2 x < e + 1 := by
        rw [← Int.lt_zpow_iff_log_lt (by norm_num) hx]
        exact_mod_cast h2
      omega
    · rw [← Int.zpow_le_iff_le_log (by norm_num) hx]
      exact_mod_cast h1
  have hq : binary32_quantum x = (2 : Rat) ^ (e - 23) := by
    unfold binary32_quantum
    rw [hlog, max_eq_left he]
  unfold binary32_round
  rw [if_neg hx.ne', hq, roundEven_eq_of_near _ k hk]

theorem binary32_round_one : binary32_round 1 = 1 := by
  rw [binary32_round_eq_of_pos 1 0 8388608 (by norm_num) (by norm_num) (by norm_num)
    (by norm_num) (by norm_num)]
  norm_num

theorem binary32_round_thousand : binary32_round 1000 = 1000 := by
  rw [binary32_round_eq_of_pos 1000 9 16384000 (by norm_num) (by norm_num) (by norm_num)
    (by norm_num) (by norm_num)]
  norm_num

theorem binary32_round_milli : binary32_round (1 / 1000) = 8589935 / 8589934592 := by
  rw [binary32_round_eq_of_pos (1 / 1000) (-10) 8589935 (by norm_num) (by norm_num)
    (by norm_num) (by norm_num) (by norm_num [abs_lt])]
  norm_num

theorem binary32_round_milli_self :
    binary32_round (8589935 / 8589934592) = 8589935 / 8589934592 := by
  rw [binary32_round_eq_of_pos (8589935 / 8589934592) (-10) 8589935 (by norm_num)
    (by norm_num) (by norm_num) (by norm_num) (by norm_num)]
  norm_num

/-- The seconds computed from `m` milliseconds by `milliseconds * (1.0F / 1000)`
in binary32: nearly `m / 1000`, of the sign of `m`, and never an overflow for
a finite `m`. -/
theorem binary32_seconds (m : Rat) :
    FloatArith.binary32.div FloatArith.binary32.one (FloatArith.binary32.ofInt 1000)
      = 8589935 / 8589934592 ∧
    (0 ≤ m →
      0 ≤ FloatArith.binary32.toDouble (FloatArith.binary32.mul m
        (FloatArith.binary32.div FloatArith.binary32.one (FloatArith.binary32.ofInt 1000)))) ∧
    |FloatArith.binary32.toDouble (FloatArith.binary32.mul m
        (FloatArith.binary32.div FloatArith.binary32.one (FloatArith.binary32.ofInt 1000)))
      - m / 1000| ≤ |m| / 1000 * 2 ^ (-23 : Int) + 2 ^ (-150 : Int) ∧
    (|m| < 2 ^ (128 : Nat) →
      |FloatArith.binary32.toDouble (FloatArith.binary32.mul m
        (FloatArith.binary32.div FloatArith.binary32.one (FloatArith.binary32.ofInt 1000)))|
        < 2 ^ (128 : Nat)) := by
  have hc : FloatArith.binary32.div FloatArith.binary32.one (FloatArith.binary32.ofInt 1000)
      = 8589935 / 8589934592 := by
    simp only [FloatArith.binary32, Int.cast_ofNat, binary32_round_thousand]
    rw [← binary32_round_milli]
  have herr : |binary32_round (m * (8589935 / 8589934592)) - m / 1000|
      ≤ |m| / 1000 * 2 ^ (-23 : Int) + 2 ^ (-150 : Int) := by
    have h1 := binary32_round_sub_le (m * (8589935 / 8589934592))
    have h2 : |m * (8589935 / 8589934592)| = |m| * (8589935 / 8589934592) := by
      rw [abs_mul, abs_of_pos (by norm_num : (0 : Rat) < 8589935 / 8589934592)]
    have h3 : |m * (8589935 / 8589934592) - m / 1000| = |m| * (51 / 1073741824000) := by
      have : m * (8589935 / 8589934592) - m / 1000 = m * (51 / 1073741824000) := by ring
      rw [this, abs_mul, abs_of_pos (by norm_num : (0 : Rat) < 51 / 1073741824000)]
    have h4 : |binary32_round (m * (8589935 / 8589934592)) - m / 1000|
        ≤ |binary32_round (m * (8589935 / 8589934592)) - m * (8589935 / 8589934592)|
          + |m * (8589935 / 8589934592) - m / 1000| := by
      have := abs_add (binary32_round (m * (8589935 / 8589934592)) - m * (8589935 / 8589934592))
        (m * (8589935 / 8589934592) - m / 1000)
      simpa using this
    rw [h2] at h1
    rw [h3] at h4
    have h5 : (2 : Rat) ^ (-24 : Int) = 1 / 16777216 := by norm_num
    have h6 : (2 : Rat) ^ (-23 : Int) = 1 / 8388608 := by norm_num
    rw [h5] at h1
    rw [h6]
    have h7 := abs_nonneg m
    linarith
  refine ⟨hc, fun hm => ?_, ?_, fun hm => ?_⟩
  · rw [hc]
    simp only [FloatArith.binary32]
    exact binary32_round_nonneg _ (mul_nonneg hm (by norm_num))
  · rw [hc]
    simpa only [FloatArith.binary32] using herr
  · rw [hc]
    simp only [FloatArith.binary32]
    have h1 := abs_sub_abs_le_abs_sub (binary32_round (m * (8589935 / 8589934592))) (m / 1000)
    have h2 : |m / 1000| = |m| / 1000 := by
      rw [abs_div, abs_of_pos (by norm_num : (0 : Rat) < 1000)]
    rw [h2] at h1
    have h6 : (2 : Rat) ^ (-23 : Int) = 1 / 8388608 := by norm_num
    have h8 : (2 : Rat) ^ (-150 : Int) ≤ 1 := by
      apply zpow_le_one_of_nonpos₀ <;> norm_num
    rw [h6] at herr
    have h9 : (1 : Rat) ≤ 2 ^ (128 : Nat) := one_le_pow₀ (by norm_num)
    have h7 := abs_nonneg m
    linarith

/-! ## The event timer: construction and the report -/

theorem TimerCall.reports_append {D : Type} (l1 l2 : List (TimerCall D)) :
    TimerCall.reports (l1 ++ l2) = TimerCall.reports l1 + TimerCall.reports l2 := by
  induction l1 with
  | nil => simp [TimerCall.reports]
  | cons c rest ih =>
    rw [List.cons_append]
    cases c
    all_goals simp only [TimerCall.reports]
    all_goals rw [ih]
    all_goals omega

/-- The constructor never reports to the sink, however it ends. -/
theorem cuda_event_timer.ctor_reports {D : Type} (state : Nat) (flush_l2_cache : Bool)
    (stream : cuda_stream_view) (a : TimerCtorAnswers) :
    TimerCall.reports
      (cuda_event_timer.ctor state flush_l2_cache stream a : TimerCtorResult D).calls = 0 := by
  have hf : TimerCall.reports
      (cuda_event_timer.ctor_flush flush_l2_cache stream a :
        List (TimerCall D) × Option timer_exception).1 = 0 := by
    unfold cuda_event_timer.ctor_flush
    repeat' split
    all_goals simp [TimerCall.reports_append, TimerCall.reports]
  unfold cuda_event_timer.ctor
  repeat' split
  all_goals simp_all [TimerCall.reports_append, TimerCall.reports]

/-- A constructor that succeeds has bound the stream and the sink it was given
and holds the two events the runtime created. -/
theorem cuda_event_timer.ctor_ok {D : Type} (state : Nat) (flush_l2_cache : Bool)
    (stream : cuda_stream_view) (a : TimerCtorAnswers) (t : cuda_event_timer)
    (hc : (cuda_event_timer.ctor state flush_l2_cache stream a : TimerCtorResult D).result
      = Except.ok t) :
    t = { stream := stream, p_state := state, start := a.start, stop := a.stop } := by
  unfold cuda_event_timer.ctor at hc
  repeat' split at hc
  all_goals simp_all

theorem cuda_event_timer.dtor_reports_le {F D : Type} (fl : FloatArith F D) (NDEBUG : Bool)
    (self : cuda_event_timer) (r : TimerAnswers F) :
    TimerCall.reports (cuda_event_timer.dtor fl NDEBUG self r).calls ≤ 1 := by
  unfold cuda_event_timer.dtor
  repeat' split
  all_goals simp [TimerCall.reports]

theorem cuda_event_timer.dtor_calls_of_returns {F D : Type} (fl : FloatArith F D)
    (NDEBUG : Bool) (self : cuda_event_timer) (r : TimerAnswers F)
    (h : (cuda_event_timer.dtor fl NDEBUG self r).aborted = false) :
    (cuda_event_timer.dtor fl NDEBUG self r).calls
      = [TimerCall.hipEventRecord self.stop self.stream.value,
         TimerCall.hipEventSynchronize self.stop,
         TimerCall.hipEventElapsedTime self.start self.stop,
         TimerCall.SetIterationTime self.p_state
           (fl.toDouble (fl.mul (r.elapsed_ms.getD fl.zero) (fl.div fl.one (fl.ofInt 1000)))),
         TimerCall.hipEventDestroy self.start,
         TimerCall.hipEventDestroy self.stop] := by
  unfold cuda_event_timer.dtor at h ⊢
  repeat' split at h
  all_goals simp_all

theorem cuda_event_timer.dtor_first_call {F D : Type} (fl : FloatArith F D)
    (NDEBUG : Bool) (self : cuda_event_timer) (r : TimerAnswers F) :
    (cuda_event_timer.dtor fl NDEBUG self r).calls.head?
      = some (TimerCall.hipEventRecord self.stop self.stream.value) := by
  unfold cuda_event_timer.dtor
  repeat' split
  all_goals simp

/-- C9, as the code has it.  For every successfully constructed
`cuda_event_timer`: nothing is reported to the sink during construction, and
the timer is bound to the stream and the sink it was given.  Its destruction
begins by recording the stop event on the bound stream and reports to the
sink at most once.  When the destructor returns, which it does whenever every
native call succeeds and always under `NDEBUG`, it has recorded the stop
event, waited for it, asked for the elapsed time, reported exactly once and
destroyed both events; the reported value is the `float` product of the
milliseconds stored by `hipEventElapsedTime` (`0.0F` if nothing was stored)
and `1.0F / 1000`, widened to `double`.  Without `NDEBUG`, a failed record,
synchronize or elapsed-time query stops the destructor before any report.
In IEEE binary32 the constant `1.0F / 1000` is `8589935 / 8589934592`, and the
reported value for `m` milliseconds is non-negative whenever `m` is, differs
from `m / 1000` by at most `|m| / 1000 * 2 ^ (-23) + 2 ^ (-150)`, and is finite
whenever `m` is. -/
theorem C9_timer_reports_once_on_return {F D : Type} (fl : FloatArith F D) (NDEBUG : Bool)
    (state : Nat) (flush_l2_cache : Bool) (stream : cuda_stream_view)
    (a : TimerCtorAnswers) (r : TimerAnswers F) (t : cuda_event_timer)
    (hc : (cuda_event_timer.ctor state flush_l2_cache stream a : TimerCtorResult D).result
      = Except.ok t) :
    TimerCall.reports
      (cuda_event_timer.ctor state flush_l2_cache stream a : TimerCtorResult D).calls = 0 ∧
    (t.stream = stream ∧ t.p_state = state) ∧
    (cuda_event_timer.dtor fl NDEBUG t r).calls.head?
      = some (TimerCall.hipEventRecord t.stop stream.value) ∧
    TimerCall.reports (cuda_event_timer.dtor fl NDEBUG t r).calls ≤ 1 ∧
    ((cuda_event_timer.dtor fl NDEBUG t r).aborted = false →
      (cuda_event_timer.dtor fl NDEBUG t r).calls
        = [TimerCall.hipEventRecord t.stop stream.value,
           TimerCall.hipEventSynchronize t.stop,
           TimerCall.hipEventElapsedTime t.start t.stop,
           TimerCall.SetIterationTime state
             (fl.toDouble (fl.mul (r.elapsed_ms.getD fl.zero) (fl.div fl.one (fl.ofInt 1000)))),
           TimerCall.hipEventDestroy t.start,
           TimerCall.hipEventDestroy t.stop] ∧
      TimerCall.reports (cuda_event_timer.dtor fl NDEBUG t r).calls = 1) ∧
    ((NDEBUG = true ∨
        (r.record = hipSuccess ∧ r.synchronize = hipSuccess ∧ r.elapsed = hipSuccess ∧
          r.destroy_start = hipSuccess ∧ r.destroy_stop = hipSuccess)) →
      (cuda_event_timer.dtor fl NDEBUG t r).aborted = false) ∧
    (NDEBUG = false →
      (r.record ≠ hipSuccess ∨ r.synchronize ≠ hipSuccess ∨ r.elapsed ≠ hipSuccess) →
      (cuda_event_timer.dtor fl NDEBUG t r).aborted = true ∧
      TimerCall.reports (cuda_event_timer.dtor fl NDEBUG t r).calls = 0) ∧
    (FloatArith.binary32.div FloatArith.binary32.one (FloatArith.binary32.ofInt 1000)
        = 8589935 / 8589934592 ∧
      ∀ m : Rat,
        (0 ≤ m →
          0 ≤ FloatArith.binary32.toDouble (FloatArith.binary32.mul m
            (FloatArith.binary32.div FloatArith.binary32.one
              (FloatArith.binary32.ofInt 1000)))) ∧
        |FloatArith.binary32.toDouble (FloatArith.binary32.mul m
            (FloatArith.binary32.div FloatArith.binary32.one (FloatArith.binary32.ofInt 1000)))
          - m / 1000| ≤ |m| / 1000 * 2 ^ (-23 : Int) + 2 ^ (-150 : Int) ∧
        (|m| < 2 ^ (128 : Nat) →
          |FloatArith.binary32.toDouble (FloatArith.binary32.mul m
            (FloatArith.binary32.div FloatArith.binary32.one
              (FloatArith.binary32.ofInt 1000)))| < 2 ^ (128 : Nat))) := by
  have ht := cuda_event_timer.ctor_ok state flush_l2_cache stream a t hc
  have hs : t.stream = stream := by rw [ht]
  have hp : t.p_state = state := by rw [ht]
  refine ⟨cuda_event_timer.ctor_reports state flush_l2_cache stream a, ⟨hs, hp⟩, ?_,
    cuda_event_timer.dtor_reports_le fl NDEBUG t r, fun hret => ?_, fun hok => ?_,
    fun hdebug hfail => ?_, (binary32_seconds 0).1, fun m => (binary32_seconds m).2⟩
  · rw [cuda_event_timer.dtor_first_call, hs]
  · have hcalls := cuda_event_timer.dtor_calls_of_returns fl NDEBUG t r hret
    rw [hs, hp] at hcalls
    refine ⟨hcalls, ?_⟩
    rw [hcalls]
    rfl
  · rcases hok with hn | ⟨h1, h2, h3, h4, h5⟩
    · subst hn
      simp [cuda_event_timer.dtor, RMM_CUDA_ASSERT_OK]
    · exact (cuda_event_timer.dtor_success fl NDEBUG t r h1 h2 h3 h4 h5).1
  · subst hdebug
    by_cases h1 : r.record = hipSuccess
    · by_cases h2 : r.synchronize = hipSuccess
      · have h3 : ¬ hipSuccess = r.elapsed := by
          intro h
          rcases hfail with h' | h' | h'
          · exact h' h1
          · exact h' h2
          · exact h' h.symm
        simp [cuda_event_timer.dtor, RMM_CUDA_ASSERT_OK, h1, h2, h3, TimerCall.reports]
      · have h2' : ¬ hipSuccess = r.synchronize := fun h => h2 h.symm
        simp [cuda_event_timer.dtor, RMM_CUDA_ASSERT_OK, h1, h2', TimerCall.reports]
    · have h1' : ¬ hipSuccess = r.record := fun h => h1 h.symm
      simp [cuda_event_timer.dtor, RMM_CUDA_ASSERT_OK, h1', TimerCall.reports]

/-- Witness for C9: a timer on the stream `5` with the sink `7`, built with a
cache flush of `4096` bytes; every native call succeeds and the runtime
measures one millisecond. -/
theorem C9_timer_reports_once_on_return_witness :
    (cuda_event_timer.ctor 7 true (cuda_stream_view.of_stream 5)
        { get_device := 0, current_device := 0, get_attribute := 0, l2_cache_bytes := 4096,
          buffer := some 64, memset := 0, create_start := 0, start := 1, create_stop := 0,
          stop := 2, record := 0 } : TimerCtorResult Rat).result
      = Except.ok { stream := cuda_stream_view.of_stream 5, p_state := 7, start := 1, stop := 2 } ∧
    (cuda_event_timer.dtor FloatArith.binary32 false
        { stream := cuda_stream_view.of_stream 5, p_state := 7, start := 1, stop := 2 }
        { record := 0, synchronize := 0, elapsed := 0, elapsed_ms := some 1,
          destroy_start := 0, destroy_stop := 0 }).aborted = false ∧
    TimerCall.reports (cuda_event_timer.dtor FloatArith.binary32 false
        { stream := cuda_stream_view.of_stream 5, p_state := 7, start := 1, stop := 2 }
        { record := 0, synchronize := 0, elapsed := 0, elapsed_ms := some 1,
          destroy_start := 0, destroy_stop := 0 }).calls = 1 :=
  ⟨rfl, rfl,
    ((C9_timer_reports_once_on_return FloatArith.binary32 false 7 true
      (cuda_stream_view.of_stream 5)
      { get_device := 0, current_device := 0, get_attribute := 0, l2_cache_bytes := 4096,
          buffer := some 64, memset := 0, create_start := 0, start := 1, create_stop := 0,
          stop := 2, record := 0 }
      { record := 0, synchronize := 0, elapsed := 0, elapsed_ms := some 1,
          destroy_start := 0, destroy_stop := 0 }
      { stream := cuda_stream_view.of_stream 5, p_state := 7, start := 1, stop := 2 } rfl).2.2.2.2.1 rfl).2⟩

/-- C9 as stated fails, in two ways.  A timer is constructed successfully on
the stream `5` with the sink `7`.  In a build without `NDEBUG`, when the
stop-event record of its destructor returns the status `1`, the destructor
reports to the sink not once but never.  And when every native call succeeds
and the runtime measures one millisecond, the value reported in binary32
arithmetic is `8589935 / 8589934592`, which is not `1 / 1000`. -/
theorem C9_no_report_or_inexact_seconds :
    (cuda_event_timer.ctor 7 true (cuda_stream_view.of_stream 5)
        { get_device := 0, current_device := 0, get_attribute := 0, l2_cache_bytes := 4096,
          buffer := some 64, memset := 0, create_start := 0, start := 1, create_stop := 0,
          stop := 2, record := 0 } : TimerCtorResult Rat).result
      = Except.ok { stream := cuda_stream_view.of_stream 5, p_state := 7, start := 1, stop := 2 } ∧
    (1 : hipError_t) ≠ hipSuccess ∧
    TimerCall.reports (cuda_event_timer.dtor FloatArith.binary32 false
        { stream := cuda_stream_view.of_stream 5, p_state := 7, start := 1, stop := 2 }
        { record := 1, synchronize := 0, elapsed := 0, elapsed_ms := none,
          destroy_start := 0, destroy_stop := 0 }).calls = 0 ∧
    (cuda_event_timer.dtor FloatArith.binary32 false
        { stream := cuda_stream_view.of_stream 5, p_state := 7, start := 1, stop := 2 }
        { record := 0, synchronize := 0, elapsed := 0, elapsed_ms := some 1,
          destroy_start := 0, destroy_stop := 0 }).calls
      = [TimerCall.hipEventRecord 2 5,
         TimerCall.hipEventSynchronize 2,
         TimerCall.hipEventElapsedTime 1 2,
         TimerCall.SetIterationTime 7 (8589935 / 8589934592),
         TimerCall.hipEventDestroy 1,
         TimerCall.hipEventDestroy 2] ∧
    (8589935 / 8589934592 : Rat) ≠ 1 / 1000 := by
  refine ⟨rfl, by decide, rfl, ?_, by norm_num⟩
  rw [(cuda_event_timer.dtor_success FloatArith.binary32 false _ _ rfl rfl rfl rfl rfl).2]
  have hv : FloatArith.binary32.toDouble (FloatArith.binary32.mul
      ((some (1 : Rat)).getD FloatArith.binary32.zero)
      (FloatArith.binary32.div FloatArith.binary32.one (FloatArith.binary32.ofInt 1000)))
      = 8589935 / 8589934592 := by
    rw [(binary32_seconds 0).1]
    simp only [FloatArith.binary32, Option.getD_some, one_mul]
    exact binary32_round_milli_self
  rw [hv]
  rfl

end rmm
